import Mathlib

/-!
# Verification of the magento2-ls semantic index and resolution engine

This development shallowly embeds the index/resolution core of the
magento2-ls language server (src/state.rs, src/js.rs, src/m2.rs,
src/php.rs, src/lsp/definition/phtml.rs) and proves/refutes the frozen
claims about it.

Modelling conventions:
* `PathBuf` is modelled as a `String` whose components are joined by `"/"`.
* Rust `HashMap` tables are modelled as association lists; `insert`
  overwrites (the new pair is consed in front of the list with all pairs
  of the same key filtered out), `remove` filters, `get` is the first
  association.  Equality of tables in claim statements is stated on these
  lists; iteration order of a `HashMap` is arbitrary, the model fixes it
  to the list order.
* Parsing (the external tree-sitter collaborator, spec section 6) is not
  embedded: the facts a file's content yields are represented directly as
  a list of `Fact` insertion operations, and the index mutators that
  apply them are translated from src/state.rs.
* The unbounded recursion of `resolve_maps` (src/js.rs) is embedded with
  an explicit fuel parameter; `none` marks fuel exhaustion, i.e. the
  Rust code would still be recursing after that many calls.
-/

namespace M2

/-- Rendering areas, from `M2Area` in src/m2.rs. -/
inductive M2Area : Type
  | Frontend
  | Adminhtml
  | Base
deriving DecidableEq, Repr

namespace M2Area

/-- `M2Area::path_candidates` from src/m2.rs: the view sub-directories
tried for each area, in preference order. -/
def path_candidates : M2Area → List String
  | Frontend => ["frontend", "base"]
  | Adminhtml => ["adminhtml", "base"]
  | Base => ["frontend", "adminhtml", "base"]

/-- `M2Area::lower_area` from src/m2.rs: Base is the fallback of
Frontend and Adminhtml and itself has none. -/
def lower_area : M2Area → Option M2Area
  | Frontend => some Base
  | Adminhtml => some Base
  | Base => none

end M2Area

/-- Resolved items, from `M2Item` in src/m2.rs.  The `ModHtml`
constructor is the one produced by `resolved_text_to_component` in
src/js.rs for `.html` texts.  Path-carrying fields are the `PathBuf`
payloads. -/
inductive M2Item : Type
  | Component (text : String)
  | ModComponent (modName filePath modPath : String)
  | RelComponent (text dir : String)
  | ModHtml (modName filePath modPath : String)
  | Class (name : String)
  | Method (cls name : String)
  | Const (cls name : String)
  | FrontPhtml (modName template : String)
  | AdminPhtml (modName template : String)
  | BasePhtml (modName template : String)
deriving DecidableEq, Repr

/-- Provenance record constructors, from `enum Trackee` in src/state.rs.
`JsPath` is Modelled from the spec: the `js_paths` table, its accessors
and its provenance tracking are referenced by src/js.rs
(`add_component_path`, `get_component_path`,
`get_component_paths_for_area`) but their definitions are missing from
src/state.rs; spec section 4.1 states that `add_js_path(area, …)`
records provenance and that `retract(path)` removes every fact
previously attributed to `path`. -/
inductive Trackee : Type
  | Module (name : String)
  | ModulePath (name : String)
  | JsMap (area : M2Area) (name : String)
  | JsPath (area : M2Area) (name : String)
  | JsMixin (area : M2Area) (name : String)
  | Themes (area : M2Area) (name : String)
deriving DecidableEq, Repr

/-! ## Association-list model of `HashMap` -/

/-- `HashMap::get`: first association for the key. -/
def alGet {α : Type} (m : List (String × α)) (k : String) : Option α :=
  (m.find? (fun p => p.1 = k)).map (·.2)

/-- `HashMap::remove`: drop every pair with the key. -/
def alRemove {α : Type} (m : List (String × α)) (k : String) : List (String × α) :=
  m.filter (fun p => p.1 ≠ k)

/-- `HashMap::insert`: overwrite, modelled by filtering the key out and
consing the new pair in front. -/
def alInsert {α : Type} (m : List (String × α)) (k : String) (v : α) : List (String × α) :=
  (k, v) :: alRemove m k

/-- `HashMap::entry(k).or_insert_with(Vec::new).push(x)`: append to the
entry's vector, creating the entry when absent. -/
def alPush {α : Type} (m : List (String × List α)) (k : String) (x : α) :
    List (String × List α) :=
  if (alGet m k).isSome then
    m.map (fun p => if p.1 = k then (p.1, p.2 ++ [x]) else p)
  else
    (k, [x]) :: m

/-- A value per area, modelling the `[T; 3]` arrays indexed by
`M2Area::id` in src/state.rs. -/
structure Areas3 (α : Type) : Type where
  fr : α
  ad : α
  ba : α
deriving DecidableEq, Repr

namespace Areas3

/-- Array indexing `xs[area.id()]`. -/
def get {α : Type} (t : Areas3 α) : M2Area → α
  | .Frontend => t.fr
  | .Adminhtml => t.ad
  | .Base => t.ba

/-- Array update `xs[area.id()] = v`. -/
def set {α : Type} (t : Areas3 α) (a : M2Area) (v : α) : Areas3 α :=
  match a with
  | .Frontend => { t with fr := v }
  | .Adminhtml => { t with ad := v }
  | .Base => { t with ba := v }

end Areas3

/-! ## Kernel-computable string primitives

Core `String` functions such as `splitOn` are position-based and do not
reduce in the kernel, so the Rust character operations are modelled
directly on the underlying character lists. -/

/-- `str::split(sep)` for a `char` separator (Rust splits on characters
in all the places modelled here). -/
def charSplitAux (sep : Char) : List Char → List Char → List (List Char)
  | [], acc => [acc.reverse]
  | c :: rest, acc =>
    if c = sep then acc.reverse :: charSplitAux sep rest []
    else charSplitAux sep rest (c :: acc)

/-- `str::split(sep)` on a string, as a list of strings. -/
def strSplitC (s : String) (sep : Char) : List String :=
  (charSplitAux sep s.data []).map String.mk

/-- `[T]::join(sep)` / `intercalate` on character lists. -/
def joinSep (sep : List Char) : List (List Char) → List Char
  | [] => []
  | [x] => x
  | x :: rest => x ++ sep ++ joinSep sep rest

/-- `intercalate` on strings. -/
def strIntercalate (sep : String) (xs : List String) : String :=
  String.mk (joinSep sep.data (xs.map (·.data)))

/-- `str::starts_with` for a string pattern. -/
def strStartsWith (s pre : String) : Bool :=
  pre.data.isPrefixOf s.data

/-- `str::ends_with` for a string pattern. -/
def strEndsWith (s suf : String) : Bool :=
  suf.data.isSuffixOf s.data

/-! ## Path helpers from src/m2.rs -/

/-- Components of a path string, as in `Path::components` for the simple
slash-joined paths used here. -/
def pathComponents (p : String) : List String :=
  strSplitC p '/'

/-- `M2Path::has_components` from src/m2.rs: scans the components and,
once the first part has matched, requires the following components to
continue the pattern. -/
def hasComponentsGo (parts : List String) : List String → Nat → Bool → Bool
  | [], _, _ => false
  | c :: rest, partId, start =>
    let pc := parts.getD partId ""
    if start ∧ pc ≠ c then false
    else
      let start' := if pc = c then true else start
      let partId' := if pc = c then partId + 1 else partId
      if start' ∧ parts.length = partId' then true
      else hasComponentsGo parts rest partId' start'

/-- `M2Path::has_components` from src/m2.rs. -/
def hasComponents (p : String) (parts : List String) : Bool :=
  hasComponentsGo parts (pathComponents p) 0 false

/-- `M2Path::get_area` from src/m2.rs. -/
def getArea (p : String) : M2Area :=
  if hasComponents p ["view", "base"] ∨ hasComponents p ["design", "base"] then
    .Base
  else if hasComponents p ["view", "frontend"] ∨ hasComponents p ["design", "frontend"] then
    .Frontend
  else if hasComponents p ["view", "adminhtml"] ∨ hasComponents p ["design", "adminhtml"] then
    .Adminhtml
  else
    .Base

/-- `M2Path::append` from src/m2.rs: join further components. -/
def joinPath (base : String) (parts : List String) : String :=
  parts.foldl (fun acc part => acc ++ "/" ++ part) base

/-- `PathBuf::pop`: the directory of a path (drop the last component). -/
def parentDir (p : String) : String :=
  strIntercalate "/" (pathComponents p).dropLast

/-- `str::splitn(2, '/')`: first segment and, when a `'/'` is present,
the remainder. -/
def splitN2 (text : String) : String × Option String :=
  match strSplitC text '/' with
  | [] => ("", none)
  | [x] => (x, none)
  | x :: rest => (x, some (strIntercalate "/" rest))

/-- The scan of `str::replacen(pat, rep, 1)`: replace the leftmost
occurrence of the (non-empty) pattern. -/
def replaceFirstGo (pat rep : List Char) : List Char → List Char
  | [] => []
  | c :: rest =>
    if pat.isPrefixOf (c :: rest) then rep ++ (c :: rest).drop pat.length
    else c :: replaceFirstGo pat rep rest

/-- `str::replacen(pat, rep, 1)`: replace the first occurrence of `pat`
(the model inserts in front for an empty pattern, as Rust does). -/
def replaceFirst (s pat rep : String) : String :=
  if pat.data = [] then String.mk (rep.data ++ s.data)
  else String.mk (replaceFirstGo pat.data rep.data s.data)

end M2

namespace M2

/-! ## The index state, from `struct State` in src/state.rs -/

/-- Fact-insertion operations.  The external parser collaborator (spec
sections 2 and 6) is not embedded: a file's content is represented by
the list of facts its extraction yields, each constructor naming the
`State::add_*` mutator from src/state.rs that the extractor calls
(`update_index_from_config` in src/js.rs dispatches `map`/`paths`/
`mixins` entries to `add_component_map`/`add_component_path`/
`add_component_mixin`; the registration extractor calls `add_module`,
`add_module_path` and the theme-path mutators). -/
inductive Fact : Type
  | module (name : String)
  | modulePath (name path : String)
  | frontTheme (name path : String)
  | adminTheme (name path : String)
  | jsMap (area : M2Area) (key val : String)
  | jsPath (area : M2Area) (key val : String)
  | jsMixin (area : M2Area) (key val : String)
deriving DecidableEq, Repr

/-- `struct State` from src/state.rs.  Buffers store the fact list that
stands for the file's content.  The `js_paths` field is Modelled from
the spec (section 3, `JsPath`): it is read and written by src/js.rs but
missing from the `State` declaration in src/state.rs. -/
structure State : Type where
  source_file : Option String
  track_entities : List (String × List Trackee)
  buffers : List (String × List Fact)
  modules : List String
  module_paths : List (String × String)
  front_themes : List (String × String)
  admin_themes : List (String × String)
  js_maps : Areas3 (List (String × String))
  js_paths : Areas3 (List (String × String))
  js_mixins : Areas3 (List (String × List M2Item))
  workspaces : List String
deriving DecidableEq, Repr

namespace State

/-- `State::new` from src/state.rs. -/
def new : State where
  source_file := none
  track_entities := []
  buffers := []
  modules := []
  module_paths := []
  front_themes := []
  admin_themes := []
  js_maps := ⟨[], [], []⟩
  js_paths := ⟨[], [], []⟩
  js_mixins := ⟨[], [], []⟩
  workspaces := []

/-- `State::set_source_file` from src/state.rs. -/
def set_source_file (s : State) (p : String) : State :=
  { s with source_file := some p }

/-- `TrackingList::track` from src/state.rs: append the trackee to the
source path's entry, creating the entry when absent. -/
def tlTrack (tl : List (String × List Trackee)) (p : String) (t : Trackee) :
    List (String × List Trackee) :=
  if (alGet tl p).isSome then
    tl.map (fun e => if e.1 = p then (e.1, e.2 ++ [t]) else e)
  else
    (p, [t]) :: tl

/-- `TrackingList::maybe_track` from src/state.rs: track only when a
source file is set. -/
def maybeTrack (s : State) (t : Trackee) : State :=
  match s.source_file with
  | some p => { s with track_entities := tlTrack s.track_entities p t }
  | none => s

/-- The table removal performed for one trackee by
`State::clear_from_source` in src/state.rs. -/
def removeTrackee (s : State) : Trackee → State
  | .JsMap area name =>
    { s with js_maps := s.js_maps.set area (alRemove (s.js_maps.get area) name) }
  | .JsPath area name =>
    { s with js_paths := s.js_paths.set area (alRemove (s.js_paths.get area) name) }
  | .JsMixin area name =>
    { s with js_mixins := s.js_mixins.set area (alRemove (s.js_mixins.get area) name) }
  | .Module m => { s with modules := s.modules.filter (fun x => x ≠ m) }
  | .ModulePath m => { s with module_paths := alRemove s.module_paths m }
  | .Themes area m =>
    match area with
    | .Frontend => { s with front_themes := alRemove s.front_themes m }
    | .Adminhtml => { s with admin_themes := alRemove s.admin_themes m }
    | .Base =>
      { s with
        front_themes := alRemove s.front_themes m
        admin_themes := alRemove s.admin_themes m }

/-- `State::clear_from_source` from src/state.rs: untrack the path and
remove every fact recorded for it; a no-op for untracked paths. -/
def clear_from_source (s : State) (p : String) : State :=
  match alGet s.track_entities p with
  | none => s
  | some list =>
    list.foldl removeTrackee { s with track_entities := alRemove s.track_entities p }

/-- `State::get_file` from src/state.rs. -/
def get_file (s : State) (p : String) : Option (List Fact) :=
  alGet s.buffers p

/-- `State::del_file` from src/state.rs: drop the cached buffer. -/
def del_file (s : State) (p : String) : State :=
  { s with buffers := alRemove s.buffers p }

/-- `State::get_module_path` from src/state.rs. -/
def get_module_path (s : State) (m : String) : Option String :=
  alGet s.module_paths m

/-- `State::add_module` from src/state.rs. -/
def add_module (s : State) (m : String) : State :=
  let s := s.maybeTrack (.Module m)
  { s with modules := s.modules ++ [m] }

/-- `State::add_module_path` from src/state.rs. -/
def add_module_path (s : State) (m path : String) : State :=
  let s := s.maybeTrack (.ModulePath m)
  { s with module_paths := alInsert s.module_paths m path }

/-- `State::add_admin_theme_path` from src/state.rs. -/
def add_admin_theme_path (s : State) (name path : String) : State :=
  let s := s.maybeTrack (.Themes .Adminhtml name)
  { s with admin_themes := alInsert s.admin_themes name path }

/-- `State::add_front_theme_path` from src/state.rs. -/
def add_front_theme_path (s : State) (name path : String) : State :=
  let s := s.maybeTrack (.Themes .Frontend name)
  { s with front_themes := alInsert s.front_themes name path }

/-- `State::get_component_map` from src/state.rs. -/
def get_component_map (s : State) (name : String) (area : M2Area) : Option String :=
  alGet (s.js_maps.get area) name

/-- `State::add_component_map` from src/state.rs. -/
def add_component_map (s : State) (name val : String) (area : M2Area) : State :=
  let s := s.maybeTrack (.JsMap area name)
  { s with js_maps := s.js_maps.set area (alInsert (s.js_maps.get area) name val) }

/-- Modelled from the spec (section 3 `JsPath` and section 4.1
`add_js_path`): insert/overwrite a path substitution for the area and
record provenance.  The accessor is called by `update_index_from_config`
in src/js.rs but its definition is missing from src/state.rs; it is
modelled after `add_component_map`, which the spec lists alongside it. -/
def add_component_path (s : State) (name val : String) (area : M2Area) : State :=
  let s := s.maybeTrack (.JsPath area name)
  { s with js_paths := s.js_paths.set area (alInsert (s.js_paths.get area) name val) }

/-- Modelled from the spec (section 3 `JsPath`): the `(area, key)`
lookup used by `resolve_paths` in src/js.rs, missing from src/state.rs. -/
def get_component_path (s : State) (name : String) (area : M2Area) : Option String :=
  alGet (s.js_paths.get area) name

/-- Modelled from the spec (section 3 `JsPath`): the keys registered for
an area, iterated by `resolve_paths` in src/js.rs, missing from
src/state.rs.  `HashMap` iteration order is arbitrary; the model yields
the keys in table-list order. -/
def get_component_paths_for_area (s : State) (area : M2Area) : List String :=
  (s.js_paths.get area).map (·.1)

/-- `State::get_component_mixins_for_area` from src/state.rs. -/
def get_component_mixins_for_area (s : State) (name : String) (area : M2Area) :
    List M2Item :=
  ((alGet (s.js_mixins.get area) name)).getD []

/-- `State::list_front_themes_paths` from src/state.rs (values of the
front-theme table). -/
def list_front_themes_paths (s : State) : List String :=
  s.front_themes.map (·.2)

/-- `State::list_admin_themes_paths` from src/state.rs. -/
def list_admin_themes_paths (s : State) : List String :=
  s.admin_themes.map (·.2)

end State

end M2

namespace M2

/-! ## JS resolution, from src/js.rs -/

/-- The loop body of `resolve_paths` in src/js.rs: for each registered
path key of the area (in table-iteration order), if the original text
equals the key or starts with `key ++ "/"`, replace the first occurrence
of the key in the running result by the key's substitution. -/
def resolvePathsGo (s : State) (area : M2Area) (text : String) :
    List String → String → Option String
  | [], result => some result
  | p :: rest, result =>
    if text = p ∨ strStartsWith text (p ++ "/") then
      match s.get_component_path p area with
      | none => none
      | some np => resolvePathsGo s area text rest (replaceFirst result p np)
    else
      resolvePathsGo s area text rest result

/-- `resolve_paths` from src/js.rs. -/
def resolvePaths (s : State) (text : String) (area : M2Area) : Option String :=
  resolvePathsGo s area text (s.get_component_paths_for_area area) text

/-- `resolve_maps` from src/js.rs, with an explicit fuel bound on the
recursion (the Rust recursion is unbounded): a mapped key resolves its
target recursively in the same area, an unmapped key falls back to the
lower area, and without a lower area the text is returned as-is.
`none` marks fuel exhaustion: the Rust code is still recursing after
`fuel` nested calls. -/
def resolveMapsFuel : Nat → State → String → M2Area → Option String
  | 0, _, _, _ => none
  | fuel + 1, s, text, area =>
    match s.get_component_map text area with
    | some t => resolveMapsFuel fuel s t area
    | none =>
      match area.lower_area with
      | none => some text
      | some a => resolveMapsFuel fuel s text a

/-- `resolved_text_to_component` from src/js.rs: classify a resolved
text.  Character tests are the ASCII reading of the Rust `char` tests. -/
def resolvedTextToComponent (s : State) (text : String) (path : String) :
    Option M2Item :=
  let begining := (strSplitC text '/').headD ""
  if strEndsWith text ".html" then
    match splitN2 text with
    | (modName, some rest) =>
      match s.get_module_path modName with
      | some modPath => some (.ModHtml modName rest modPath)
      | none => none
    | (_, none) => none
  else if begining.toList.headD 'a' = '.' then
    some (.RelComponent text (parentDir path))
  else if (strSplitC text '/').length > 1 ∧ begining.toList.count '_' = 1 ∧
      (begining.toList.headD 'a').isUpper then
    match splitN2 text with
    | (modName, some rest) =>
      match s.get_module_path modName with
      | some modPath => some (.ModComponent modName rest modPath)
      | none => none
    | (_, none) => none
  else
    some (.Component text)

/-- `text_to_component` from src/js.rs: strip a literal `text!` prefix,
apply the path substitutions, resolve the alias chain (fuelled), then
classify. -/
def textToComponentF (fuel : Nat) (s : State) (text : String) (path : String) :
    Option M2Item :=
  let text := if strStartsWith text "text!" then String.mk (text.data.drop 5) else text
  match resolvePaths s text (getArea path) with
  | none => none
  | some t =>
    match resolveMapsFuel fuel s t (getArea path) with
    | none => none
    | some t' => resolvedTextToComponent s t' path

namespace State

/-- `State::add_component_mixin` from src/state.rs: the key is always
tracked; the target text is resolved through `text_to_component` against
the current state (with the empty path, hence `Base` area), and only a
resolvable target is pushed onto the key's entry. -/
def add_component_mixin (fuel : Nat) (s : State) (name val : String) (area : M2Area) :
    State :=
  let s := s.maybeTrack (.JsMixin area name)
  match textToComponentF fuel s val "" with
  | some component =>
    { s with js_mixins := s.js_mixins.set area (alPush (s.js_mixins.get area) name component) }
  | none => s

/-- The loop of `State::split_class_to_path_and_suffix` from
src/state.rs, over the reversed segment list: pop the last segment into
the suffix and return the path of the first prefix registered as a
module name. -/
def splitClassAux (s : State) : List String → List String → Option (String × List String)
  | [], _ => none
  | part :: restRev, suffix =>
    let suffix := suffix ++ [part]
    let pfx := strIntercalate "\\" restRev.reverse
    match s.get_module_path pfx with
    | some modPath => some (modPath, suffix.reverse)
    | none => splitClassAux s restRev suffix

/-- `State::split_class_to_path_and_suffix` from src/state.rs. -/
def split_class_to_path_and_suffix (s : State) (cls : String) :
    Option (String × List String) :=
  splitClassAux s (strSplitC cls '\\').reverse []

/-! ## Applying extracted facts (the extractor glue) -/

/-- Apply one extracted fact through the corresponding `State::add_*`
mutator from src/state.rs (`add_component_path` is the spec-modelled
one). -/
def applyFact (fuel : Nat) (s : State) : Fact → State
  | .module m => s.add_module m
  | .modulePath m p => s.add_module_path m p
  | .frontTheme n p => s.add_front_theme_path n p
  | .adminTheme n p => s.add_admin_theme_path n p
  | .jsMap a k v => s.add_component_map k v a
  | .jsPath a k v => s.add_component_path k v a
  | .jsMixin a k v => s.add_component_mixin fuel k v a

/-- Extraction of one file's facts, as `update_index_from_config` in
src/js.rs does it: set the source file for provenance, then apply each
fact in order. -/
def indexOps (fuel : Nat) (s : State) (path : String) (ops : List Fact) : State :=
  ops.foldl (applyFact fuel) (s.set_source_file path)

/-- `State::set_file` from src/state.rs: retract the path's previous
facts, re-extract the new content, and cache the buffer. -/
def set_file (fuel : Nat) (s : State) (path : String) (ops : List Fact) : State :=
  let s := s.clear_from_source path
  let s := s.indexOps fuel path ops
  { s with buffers := alInsert s.buffers path ops }

end State

/-! ## Module registration, from src/php.rs -/

/-- `M2Module` from src/php.rs. -/
inductive M2Module : Type
  | Module (name : String)
  | Library (name : String)
  | FrontTheme (name : String)
  | AdminTheme (name : String)
deriving DecidableEq, Repr

/-- `convert_case::Casing::to_case(Case::Pascal)` as used by
`register_param_to_module` in src/php.rs, modelling the external crate
for the identifier-shaped inputs that reach it: split into words at
`-`/`_`/space separators and at lower-to-upper case boundaries, then
capitalise each word. -/
def toPascalWord (w : List Char) : List Char :=
  match w with
  | [] => []
  | c :: rest => c.toUpper :: rest.map Char.toLower

/-- Word-splitting part of the Pascal-case model. -/
def pascalSplit : List Char → List Char → List (List Char)
  | [], acc => if acc = [] then [] else [acc.reverse]
  | c :: rest, acc =>
    if c = '-' ∨ c = '_' ∨ c = ' ' then
      if acc = [] then pascalSplit rest [] else acc.reverse :: pascalSplit rest []
    else if c.isUpper ∧ (acc.headD 'A').isLower then
      acc.reverse :: pascalSplit rest [c]
    else
      pascalSplit rest (c :: acc)

/-- The Pascal-case model itself. -/
def toPascal (s : String) : String :=
  String.mk ((pascalSplit s.toList []).map toPascalWord).flatten

/-- `register_param_to_module` from src/php.rs: derive the
namespace-form name of a registration parameter.  A parameter with two
`/` is a theme, one `/` a library (Pascal-cased, with a `-` splitting
the second part), exactly one `_` a module namespace; anything else
yields nothing. -/
def registerParamToModule (param : String) : Option M2Module :=
  if (param.toList.count '/') = 2 then
    if strStartsWith param "frontend" then
      some (.FrontTheme param)
    else
      some (.AdminTheme param)
  else if (param.toList.count '/') = 1 then
    match strSplitC param '/' with
    | [a, b] =>
      let p1 := toPascal a
      if (b.toList.count '-') > 0 then
        match strSplitC b '-' with
        | b1 :: brest =>
          some (.Library (p1 ++ "\\" ++ toPascal b1 ++ "\\"
            ++ toPascal (strIntercalate "-" brest)))
        | [] => none
      else
        some (.Library (p1 ++ "\\" ++ toPascal b))
    | _ => none
  else if (param.toList.count '_') = 1 then
    match strSplitC param '_' with
    | p1 :: p2 :: _ => some (.Module (p1 ++ "\\" ++ p2))
    | _ => none
  else
    none

/-- The fact-insertion block of `update_index` in src/php.rs (lines
126-153), adapted to the `State` tables (the `State`-based registration
extractor is missing from src/src): the registration name is inserted
into the module-path table as-is, and its namespace-derived form (or
theme form) is inserted as well. -/
def registerModule (s : State) (modName parent : String) : State :=
  let s := s.add_module_path modName parent
  match registerParamToModule modName with
  | some (.Module m) => s.add_module_path m parent
  | some (.Library l) => s.add_module_path l parent
  | some (.FrontTheme t) => s.add_front_theme_path t parent
  | some (.AdminTheme t) => s.add_admin_theme_path t parent
  | none => s

end M2

namespace M2

/-! ## Template (phtml) definition lookup, from src/lsp/definition/phtml.rs

The filesystem collaborator (spec section 6: existence check) is
modelled by the list `fs` of paths that exist on disk. -/

/-- `path_to_location` from src/lsp/definition.rs: a location for the
path when the file exists, nothing otherwise. -/
def pathToLocation (fs : List String) (p : String) : Option String :=
  if p ∈ fs then some p else none

/-- `add_phtml_in_mod_location` from src/lsp/definition/phtml.rs: the
owning module's own `view/<area>/templates` candidates, in
`path_candidates` order, kept when they exist. -/
def phtmlInModLocation (s : State) (fs : List String) (modName template : String)
    (area : M2Area) : List String :=
  match s.get_module_path modName with
  | none => []
  | some path =>
    area.path_candidates.filterMap
      (fun a => pathToLocation fs (joinPath path ["view", a, "templates", template]))

/-- `add_phtml_in_front_theme_location` from src/lsp/definition/phtml.rs. -/
def phtmlInFrontThemeLocation (s : State) (fs : List String) (modName template : String) :
    List String :=
  s.list_front_themes_paths.filterMap
    (fun tp => pathToLocation fs (joinPath tp [modName, "templates", template]))

/-- `add_phtml_in_admin_theme_location` from src/lsp/definition/phtml.rs. -/
def phtmlInAdminThemeLocation (s : State) (fs : List String) (modName template : String) :
    List String :=
  s.list_admin_themes_paths.filterMap
    (fun tp => pathToLocation fs (joinPath tp [modName, "templates", template]))

/-- `find_front` from src/lsp/definition/phtml.rs. -/
def findFront (s : State) (fs : List String) (modName template : String) : List String :=
  phtmlInModLocation s fs modName template .Frontend
    ++ phtmlInFrontThemeLocation s fs modName template

/-- `find_admin` from src/lsp/definition/phtml.rs. -/
def findAdmin (s : State) (fs : List String) (modName template : String) : List String :=
  phtmlInModLocation s fs modName template .Adminhtml
    ++ phtmlInAdminThemeLocation s fs modName template

/-- `find_base` from src/lsp/definition/phtml.rs. -/
def findBase (s : State) (fs : List String) (modName template : String) : List String :=
  phtmlInModLocation s fs modName template .Base
    ++ phtmlInFrontThemeLocation s fs modName template
    ++ phtmlInAdminThemeLocation s fs modName template

/-! ## Workspace bulk scanning, from src/js.rs and src/php.rs

The filesystem collaborator supplies the glob enumeration (a lazy,
per-entry-fallible sequence, modelled as `List (Except Unit String)`)
and `read : String → Option (List Fact)` (file content, already in
extracted-fact form; `none` models an unreadable file).  A Rust panic
(`expect`/`panic!`) aborts the scanning job; it is modelled by
`Except.error` with the panic message, which stops the fold. -/

/-- `index_file` from src/js.rs: read the file — panicking when the read
fails — and extract its require-config facts. -/
def indexFileJs (fuel : Nat) (read : String → Option (List Fact)) (s : State)
    (p : String) : Except String State :=
  match read p with
  | none => .error "Should have been able to read the file"
  | some ops => .ok (s.indexOps fuel p ops)

/-- The per-file loop of `process_glob` from src/js.rs: a panic aborts
the remaining files of the job. -/
def processGlobGo (fuel : Nat) (read : String → Option (List Fact)) :
    List String → State → Except String State
  | [], s => .ok s
  | p :: rest, s =>
    match indexFileJs fuel read s p with
    | .error e => .error e
    | .ok s' => processGlobGo fuel read rest s'

/-- `process_glob` from src/js.rs: fallible glob entries are dropped by
`filter_map(Result::ok)`, then every surviving file is indexed. -/
def processGlob (fuel : Nat) (read : String → Option (List Fact))
    (entries : List (Except Unit String)) (s : State) : Except String State :=
  processGlobGo fuel read
    (entries.filterMap (fun e => match e with | .ok p => some p | .error _ => none)) s

/-- The registration-scan loop of `update_index` from src/php.rs (lines
112-121): a fallible glob entry panics (`panic!("buhu")`), and a failed
file read panics; otherwise each captured registration name is inserted
with the file's parent directory as module root.  `read` yields the
names captured by the registration query for the file's content. -/
def processRegistrations (read : String → Option (List String)) :
    List (Except Unit String) → State → Except String State
  | [], s => .ok s
  | .error _ :: _, _ => .error "buhu"
  | .ok p :: rest, s =>
    match read p with
    | none => .error "Should have been able to read the file"
    | some names =>
      processRegistrations read rest
        (names.foldl (fun s n => registerModule s n (parentDir p)) s)

end M2

namespace M2

/-! ## Basic association-list lemmas -/

theorem alGet_cons {α : Type} (a : String) (v : α) (m : List (String × α)) (q : String) :
    alGet ((a, v) :: m) q = if a = q then some v else alGet m q := by
  by_cases h : a = q <;> simp [alGet, List.find?, h]

theorem alRemove_cons {α : Type} (a : String) (v : α) (m : List (String × α)) (k : String) :
    alRemove ((a, v) :: m) k
      = if a = k then alRemove m k else (a, v) :: alRemove m k := by
  by_cases h : a = k <;> simp [alRemove, List.filter, h]

theorem alGet_alRemove_self {α : Type} (m : List (String × α)) (k : String) :
    alGet (alRemove m k) k = none := by
  induction m with
  | nil => rfl
  | cons p rest ih =>
    obtain ⟨a, v⟩ := p
    rw [alRemove_cons]
    by_cases h : a = k
    · simpa [h] using ih
    · rw [if_neg h, alGet_cons, if_neg h]
      exact ih

theorem alGet_alRemove_ne {α : Type} (m : List (String × α)) (k q : String)
    (h : q ≠ k) : alGet (alRemove m k) q = alGet m q := by
  induction m with
  | nil => rfl
  | cons p rest ih =>
    obtain ⟨a, v⟩ := p
    rw [alRemove_cons, alGet_cons]
    by_cases ha : a = k
    · rw [if_pos ha, ih, if_neg (by rw [ha]; exact fun hh => h hh.symm)]
    · rw [if_neg ha, alGet_cons]
      by_cases haq : a = q
      · rw [if_pos haq, if_pos haq]
      · rw [if_neg haq, if_neg haq, ih]

theorem alGet_alInsert_self {α : Type} (m : List (String × α)) (k : String) (v : α) :
    alGet (alInsert m k v) k = some v := by
  rw [alInsert, alGet_cons, if_pos rfl]

theorem alGet_alInsert_ne {α : Type} (m : List (String × α)) (k q : String) (v : α)
    (h : q ≠ k) : alGet (alInsert m k v) q = alGet m q := by
  rw [alInsert, alGet_cons, if_neg (fun hh => h hh.symm), alGet_alRemove_ne _ _ _ h]

theorem alRemove_of_not_mem {α : Type} (m : List (String × α)) (k : String)
    (h : alGet m k = none) : alRemove m k = m := by
  induction m with
  | nil => rfl
  | cons p rest ih =>
    obtain ⟨a, v⟩ := p
    rw [alGet_cons] at h
    by_cases ha : a = k
    · rw [if_pos ha] at h; exact absurd h (by simp)
    · rw [if_neg ha] at h
      rw [alRemove_cons, if_neg ha, ih h]

/-! ## C9: closing a document is a pure buffer operation -/

/-- C9: `State::del_file` removes only the closed path's cached buffer
text; every fact table (module list, module paths, both theme tables,
JS maps, JS paths, JS mixins), the provenance-tracking list and the
workspace list are unchanged, and other paths' buffers are untouched. -/
theorem c9_close_is_pure_buffer_op (s : State) (p q : String) :
    (s.del_file p).get_file p = none
    ∧ (q ≠ p → (s.del_file p).get_file q = s.get_file q)
    ∧ (s.del_file p).modules = s.modules
    ∧ (s.del_file p).module_paths = s.module_paths
    ∧ (s.del_file p).front_themes = s.front_themes
    ∧ (s.del_file p).admin_themes = s.admin_themes
    ∧ (s.del_file p).js_maps = s.js_maps
    ∧ (s.del_file p).js_paths = s.js_paths
    ∧ (s.del_file p).js_mixins = s.js_mixins
    ∧ (s.del_file p).track_entities = s.track_entities
    ∧ (s.del_file p).workspaces = s.workspaces := by
  refine ⟨?_, ?_, rfl, rfl, rfl, rfl, rfl, rfl, rfl, rfl, rfl⟩
  · exact alGet_alRemove_self _ _
  · intro h
    exact alGet_alRemove_ne _ _ _ h

/-- Witness for C9 at a concrete state: a buffered file is dropped while
a second buffer and a module fact survive. -/
theorem c9_close_is_pure_buffer_op_witness :
    ("g" : String) ≠ "f"
    ∧ (((State.new.add_module "Aa_Bb").del_file "f").get_file "f" = none
      ∧ (("g" : String) ≠ "f" →
        ((State.new.add_module "Aa_Bb").del_file "f").get_file "g"
          = (State.new.add_module "Aa_Bb").get_file "g")
      ∧ ((State.new.add_module "Aa_Bb").del_file "f").modules
          = (State.new.add_module "Aa_Bb").modules
      ∧ ((State.new.add_module "Aa_Bb").del_file "f").module_paths
          = (State.new.add_module "Aa_Bb").module_paths
      ∧ ((State.new.add_module "Aa_Bb").del_file "f").front_themes
          = (State.new.add_module "Aa_Bb").front_themes
      ∧ ((State.new.add_module "Aa_Bb").del_file "f").admin_themes
          = (State.new.add_module "Aa_Bb").admin_themes
      ∧ ((State.new.add_module "Aa_Bb").del_file "f").js_maps
          = (State.new.add_module "Aa_Bb").js_maps
      ∧ ((State.new.add_module "Aa_Bb").del_file "f").js_paths
          = (State.new.add_module "Aa_Bb").js_paths
      ∧ ((State.new.add_module "Aa_Bb").del_file "f").js_mixins
          = (State.new.add_module "Aa_Bb").js_mixins
      ∧ ((State.new.add_module "Aa_Bb").del_file "f").track_entities
          = (State.new.add_module "Aa_Bb").track_entities
      ∧ ((State.new.add_module "Aa_Bb").del_file "f").workspaces
          = (State.new.add_module "Aa_Bb").workspaces) :=
  ⟨by decide, c9_close_is_pure_buffer_op (State.new.add_module "Aa_Bb") "f" "g"⟩

end M2

namespace M2

/-! ## C8: alias-chain resolution on a cyclic alias table -/

/-- A malformed configuration with a Base-area alias cycle
`A → B → A`, as in spec section 9. -/
def cyclicAliasState : State :=
  { State.new with js_maps := ⟨[], [], [("A", "B"), ("B", "A")]⟩ }

/-- C8: the `resolve_maps` recursion of src/js.rs is *not* bounded: on
the cyclic alias table `A → B → A` the recursion exhausts every fuel
bound, for both starting ids — i.e. the Rust code loops forever instead
of failing closed with the last resolvable text. -/
theorem c8_cyclic_alias_diverges (n : Nat) :
    resolveMapsFuel n cyclicAliasState "A" .Base = none
    ∧ resolveMapsFuel n cyclicAliasState "B" .Base = none := by
  induction n with
  | zero => exact ⟨rfl, rfl⟩
  | succ n ih =>
    have hA : cyclicAliasState.get_component_map "A" .Base = some "B" := by decide
    have hB : cyclicAliasState.get_component_map "B" .Base = some "A" := by decide
    constructor
    · rw [resolveMapsFuel, hA]
      exact ih.2
    · rw [resolveMapsFuel, hB]
      exact ih.1

/-! ## C3: one-directional area fallback -/

/-- A Base-area lookup reads only the Base alias table: two states with
the same Base table resolve identically from Base, whatever their
Frontend and Adminhtml tables hold. -/
theorem resolveMapsFuel_base_only (n : Nat) (s s' : State)
    (hbase : s'.js_maps.ba = s.js_maps.ba) (q : String) :
    resolveMapsFuel n s' q .Base = resolveMapsFuel n s q .Base := by
  induction n generalizing q with
  | zero => rfl
  | succ n ih =>
    have hmap : s'.get_component_map q .Base = s.get_component_map q .Base := by
      unfold State.get_component_map
      rw [show (s'.js_maps.get .Base) = s'.js_maps.ba from rfl,
        show (s.js_maps.get .Base) = s.js_maps.ba from rfl, hbase]
    rw [resolveMapsFuel, resolveMapsFuel, hmap]
    cases s.get_component_map q .Base with
    | none => rfl
    | some t => exact ih t

/-- C3: area fallback is one-directional.  For an alias `k → t`
registered only under Base (and `t` itself unmapped), resolution
queried from Frontend or from Adminhtml finds it; an alias registered
only under Frontend (`k2`) is invisible from Adminhtml and from Base,
where the id is returned as-is; and a Base-area lookup never consults
the Frontend or Adminhtml tables. -/
theorem c3_area_fallback_one_directional
    (s s' : State) (k t k2 v2 q : String) (fuel n : Nat)
    (hkF : s.get_component_map k .Frontend = none)
    (hkA : s.get_component_map k .Adminhtml = none)
    (hkB : s.get_component_map k .Base = some t)
    (htB : s.get_component_map t .Base = none)
    (_hk2F : s.get_component_map k2 .Frontend = some v2)
    (hk2A : s.get_component_map k2 .Adminhtml = none)
    (hk2B : s.get_component_map k2 .Base = none)
    (hbase : s'.js_maps.ba = s.js_maps.ba) :
    resolveMapsFuel (fuel + 3) s k .Frontend = some t
    ∧ resolveMapsFuel (fuel + 3) s k .Adminhtml = some t
    ∧ resolveMapsFuel (fuel + 2) s k2 .Adminhtml = some k2
    ∧ resolveMapsFuel (fuel + 1) s k2 .Base = some k2
    ∧ resolveMapsFuel n s' q .Base = resolveMapsFuel n s q .Base := by
  refine ⟨?_, ?_, ?_, ?_, resolveMapsFuel_base_only n s s' hbase q⟩
  · simp only [resolveMapsFuel, hkF, hkB, htB, M2Area.lower_area]
  · simp only [resolveMapsFuel, hkA, hkB, htB, M2Area.lower_area]
  · simp only [resolveMapsFuel, hk2A, hk2B, M2Area.lower_area]
  · simp only [resolveMapsFuel, hk2B, M2Area.lower_area]

/-- Witness for C3: a concrete state with a Base-only alias `base-key →
lib/target`, a Frontend-only alias `front-key → front/target`, and a
second state with a different Frontend table but the same Base table. -/
def c3WitnessState : State :=
  { State.new with
    js_maps := ⟨[("front-key", "front/target")], [], [("base-key", "lib/target")]⟩ }

/-- A state agreeing with `c3WitnessState` on Base but not Frontend. -/
def c3WitnessState' : State :=
  { State.new with
    js_maps := ⟨[("other", "x")], [("y", "z")], [("base-key", "lib/target")]⟩ }

/-- Witness for C3 at concrete inputs. -/
theorem c3_area_fallback_one_directional_witness :
    (c3WitnessState.get_component_map "base-key" .Frontend = none
      ∧ c3WitnessState.get_component_map "base-key" .Adminhtml = none
      ∧ c3WitnessState.get_component_map "base-key" .Base = some "lib/target"
      ∧ c3WitnessState.get_component_map "lib/target" .Base = none
      ∧ c3WitnessState.get_component_map "front-key" .Frontend = some "front/target"
      ∧ c3WitnessState.get_component_map "front-key" .Adminhtml = none
      ∧ c3WitnessState.get_component_map "front-key" .Base = none
      ∧ c3WitnessState'.js_maps.ba = c3WitnessState.js_maps.ba)
    ∧ (resolveMapsFuel 3 c3WitnessState "base-key" .Frontend = some "lib/target"
      ∧ resolveMapsFuel 3 c3WitnessState "base-key" .Adminhtml = some "lib/target"
      ∧ resolveMapsFuel 2 c3WitnessState "front-key" .Adminhtml = some "front-key"
      ∧ resolveMapsFuel 1 c3WitnessState "front-key" .Base = some "front-key"
      ∧ resolveMapsFuel 7 c3WitnessState' "front-key" .Base
          = resolveMapsFuel 7 c3WitnessState "front-key" .Base) :=
  ⟨⟨by decide, by decide, by decide, by decide, by decide, by decide, by decide, by decide⟩,
    c3_area_fallback_one_directional c3WitnessState c3WitnessState'
      "base-key" "lib/target" "front-key" "front/target" "front-key" 0 7
      (by decide) (by decide) (by decide) (by decide) (by decide) (by decide) (by decide)
      (by decide)⟩

end M2

namespace M2

/-! ## C5: id classification after resolution -/

/-- Counterexample for C5 as stated: `"Acme_Foo/tpl.html"` ends in
`.html`, so the claim classifies it as a module-relative HTML partial
with module name `Acme_Foo`; but with `Acme_Foo` not registered,
`resolved_text_to_component` produces no classification at all
(`get_module_path` fails and the `?` aborts).  Likewise
`"Acme_Foo/js/view"` satisfies the module-component test yet yields
nothing. -/
theorem c5_unregistered_module_yields_nothing :
    resolvedTextToComponent State.new "Acme_Foo/tpl.html" "/ws/file.js" = none
    ∧ strEndsWith "Acme_Foo/tpl.html" ".html" = true
    ∧ resolvedTextToComponent State.new "Acme_Foo/js/view" "/ws/file.js" = none
    ∧ (strSplitC "Acme_Foo/js/view" '/').length > 1
    ∧ (("Acme_Foo" : String).toList.count '_' = 1)
    ∧ ('A' : Char).isUpper = true := by
  refine ⟨by decide, by decide, by decide, by decide, by decide, by decide⟩

/-- C5 (amended): the classification rules hold as stated for the
relative and opaque-library cases, and for the `.html` and
module-component cases *provided the named module is registered*;
when the module named by the first segment is not in the module-path
table (or an `.html` text has no `/`), no classification is produced. -/
theorem c5_id_classification
    (s : State) (path : String)
    (t1 m1 r1 p1 : String) (h1a : strEndsWith t1 ".html" = true)
    (h1b : splitN2 t1 = (m1, some r1)) (h1c : s.get_module_path m1 = some p1)
    (t2 m2 r2 : String) (h2a : strEndsWith t2 ".html" = true)
    (h2b : splitN2 t2 = (m2, some r2)) (h2c : s.get_module_path m2 = none)
    (t3 : String) (h3a : strEndsWith t3 ".html" = false)
    (h3b : ((strSplitC t3 '/').headD "").toList.headD 'a' = '.')
    (t4 m4 r4 p4 : String) (h4a : strEndsWith t4 ".html" = false)
    (h4b : ((strSplitC t4 '/').headD "").toList.headD 'a' ≠ '.')
    (h4c : (strSplitC t4 '/').length > 1)
    (h4d : ((strSplitC t4 '/').headD "").toList.count '_' = 1)
    (h4e : (((strSplitC t4 '/').headD "").toList.headD 'a').isUpper = true)
    (h4f : splitN2 t4 = (m4, some r4)) (h4g : s.get_module_path m4 = some p4)
    (t5 m5 r5 : String) (h5a : strEndsWith t5 ".html" = false)
    (h5b : ((strSplitC t5 '/').headD "").toList.headD 'a' ≠ '.')
    (h5c : (strSplitC t5 '/').length > 1)
    (h5d : ((strSplitC t5 '/').headD "").toList.count '_' = 1)
    (h5e : (((strSplitC t5 '/').headD "").toList.headD 'a').isUpper = true)
    (h5f : splitN2 t5 = (m5, some r5)) (h5g : s.get_module_path m5 = none)
    (t6 : String) (h6a : strEndsWith t6 ".html" = false)
    (h6b : ((strSplitC t6 '/').headD "").toList.headD 'a' ≠ '.')
    (h6c : ¬((strSplitC t6 '/').length > 1 ∧ ((strSplitC t6 '/').headD "").toList.count '_' = 1
      ∧ (((strSplitC t6 '/').headD "").toList.headD 'a').isUpper = true)) :
    resolvedTextToComponent s t1 path = some (.ModHtml m1 r1 p1)
    ∧ resolvedTextToComponent s t2 path = none
    ∧ resolvedTextToComponent s t3 path = some (.RelComponent t3 (parentDir path))
    ∧ resolvedTextToComponent s t4 path = some (.ModComponent m4 r4 p4)
    ∧ resolvedTextToComponent s t5 path = none
    ∧ resolvedTextToComponent s t6 path = some (.Component t6) := by
  refine ⟨?_, ?_, ?_, ?_, ?_, ?_⟩
  · simp only [resolvedTextToComponent, h1a, h1b, h1c, if_true]
  · simp only [resolvedTextToComponent, h2a, h2b, h2c, if_true]
  · simp only [resolvedTextToComponent, h3a, h3b, if_false, if_true, Bool.false_eq_true]
  · simp only [resolvedTextToComponent, h4a, Bool.false_eq_true, if_false]
    rw [if_neg h4b, if_pos ⟨h4c, h4d, h4e⟩, h4f]
    simp only [h4g]
  · simp only [resolvedTextToComponent, h5a, Bool.false_eq_true, if_false]
    rw [if_neg h5b, if_pos ⟨h5c, h5d, h5e⟩, h5f]
    simp only [h5g]
  · simp only [resolvedTextToComponent, h6a, Bool.false_eq_true, if_false]
    rw [if_neg h6b, if_neg h6c]

/-- A state with one registered module, for the C5 witness. -/
def c5WitnessState : State :=
  State.new.add_module_path "Acme_Module" "/ws/Acme_Module"

/-- Witness for C5 at concrete texts covering all six branches. -/
theorem c5_id_classification_witness :
    resolvedTextToComponent c5WitnessState "Acme_Module/templates/t.html" "/a/b/c.js"
        = some (.ModHtml "Acme_Module" "templates/t.html" "/ws/Acme_Module")
    ∧ resolvedTextToComponent c5WitnessState "Nope_Mod/t.html" "/a/b/c.js" = none
    ∧ resolvedTextToComponent c5WitnessState "./sibling" "/a/b/c.js"
        = some (.RelComponent "./sibling" (parentDir "/a/b/c.js"))
    ∧ resolvedTextToComponent c5WitnessState "Acme_Module/js/view" "/a/b/c.js"
        = some (.ModComponent "Acme_Module" "js/view" "/ws/Acme_Module")
    ∧ resolvedTextToComponent c5WitnessState "Nope_Mod/js/view" "/a/b/c.js" = none
    ∧ resolvedTextToComponent c5WitnessState "jquery-ui-modules/widget" "/a/b/c.js"
        = some (.Component "jquery-ui-modules/widget") := by
  exact c5_id_classification c5WitnessState "/a/b/c.js"
    "Acme_Module/templates/t.html" "Acme_Module" "templates/t.html" "/ws/Acme_Module"
    (by decide) (by decide) (by decide)
    "Nope_Mod/t.html" "Nope_Mod" "t.html" (by decide) (by decide) (by decide)
    "./sibling" (by decide) (by decide)
    "Acme_Module/js/view" "Acme_Module" "js/view" "/ws/Acme_Module"
    (by decide) (by decide) (by decide) (by decide) (by decide) (by decide) (by decide)
    "Nope_Mod/js/view" "Nope_Mod" "js/view"
    (by decide) (by decide) (by decide) (by decide) (by decide) (by decide) (by decide)
    "jquery-ui-modules/widget" (by decide) (by decide) (by decide)

end M2

namespace M2

/-! ## C6: multi-candidate template resolution -/

theorem filterMap_pathToLocation {α : Type} (fs : List String) (f : α → String)
    (l : List α) :
    l.filterMap (fun a => pathToLocation fs (f a)) = (l.map f).filter (fun p => p ∈ fs) := by
  induction l with
  | nil => rfl
  | cons a rest ih =>
    by_cases h : f a ∈ fs
    · have h1 : pathToLocation fs (f a) = some (f a) := by simp [pathToLocation, h]
      simp only [List.filterMap_cons, List.map_cons, List.filter_cons, h1, ih]
      rw [if_pos (by exact decide_eq_true h)]
    · have h1 : pathToLocation fs (f a) = none := by simp [pathToLocation, h]
      simp only [List.filterMap_cons, List.map_cons, List.filter_cons, h1, ih]
      rw [if_neg (by simpa using h)]

/-- C6: for a registered module, template lookup examines the module's
own view directories in area-preference order (`frontend, base` for
Frontend; `adminhtml, base` for Adminhtml; `frontend, adminhtml, base`
for Base), followed by every registered theme of the matching kind
(front themes for Frontend, admin themes for Adminhtml, both for Base);
each candidate is returned exactly when it exists in `fs`, non-existent
candidates are silently dropped, and existing candidates are distinct
results in that order.  For an unregistered module only the theme
candidates are examined. -/
theorem c6_template_candidates (s : State) (fs : List String)
    (modName template modPath : String) :
    (s.get_module_path modName = some modPath →
      (findFront s fs modName template =
        (["frontend", "base"].map
          (fun a => joinPath modPath ["view", a, "templates", template])).filter
            (fun p => p ∈ fs)
        ++ (s.list_front_themes_paths.map
          (fun tp => joinPath tp [modName, "templates", template])).filter
            (fun p => p ∈ fs))
      ∧ (findAdmin s fs modName template =
        (["adminhtml", "base"].map
          (fun a => joinPath modPath ["view", a, "templates", template])).filter
            (fun p => p ∈ fs)
        ++ (s.list_admin_themes_paths.map
          (fun tp => joinPath tp [modName, "templates", template])).filter
            (fun p => p ∈ fs))
      ∧ (findBase s fs modName template =
        (["frontend", "adminhtml", "base"].map
          (fun a => joinPath modPath ["view", a, "templates", template])).filter
            (fun p => p ∈ fs)
        ++ (s.list_front_themes_paths.map
          (fun tp => joinPath tp [modName, "templates", template])).filter
            (fun p => p ∈ fs)
        ++ (s.list_admin_themes_paths.map
          (fun tp => joinPath tp [modName, "templates", template])).filter
            (fun p => p ∈ fs)))
    ∧ (s.get_module_path modName = none →
      findFront s fs modName template =
        (s.list_front_themes_paths.map
          (fun tp => joinPath tp [modName, "templates", template])).filter
            (fun p => p ∈ fs)) := by
  constructor
  · intro h
    refine ⟨?_, ?_, ?_⟩
    · simp only [findFront, phtmlInModLocation, phtmlInFrontThemeLocation, h,
        filterMap_pathToLocation, M2Area.path_candidates]
    · simp only [findAdmin, phtmlInModLocation, phtmlInAdminThemeLocation, h,
        filterMap_pathToLocation, M2Area.path_candidates]
    · simp only [findBase, phtmlInModLocation, phtmlInFrontThemeLocation,
        phtmlInAdminThemeLocation, h, filterMap_pathToLocation, M2Area.path_candidates,
        List.append_assoc]
  · intro h
    simp only [findFront, phtmlInModLocation, phtmlInFrontThemeLocation, h,
      filterMap_pathToLocation, List.nil_append]

/-- A state with a registered module and one front theme, for the C6
witness. -/
def c6WitnessState : State :=
  (State.new.add_module_path "Acme_Module" "/m").add_front_theme_path "Vendor/theme" "/t"

/-- The filesystem for the C6 witness: the module's own frontend
template and a theme override both exist; the base candidate does not. -/
def c6WitnessFs : List String :=
  ["/m/view/frontend/templates/page.phtml", "/t/Acme_Module/templates/page.phtml"]

/-- Witness for C6: the module default and the theme override are both
returned, module (frontend) candidate before the theme one, and the
non-existent base candidate is dropped. -/
theorem c6_template_candidates_witness :
    (c6WitnessState.get_module_path "Acme_Module" = some "/m"
      ∧ findFront c6WitnessState c6WitnessFs "Acme_Module" "page.phtml"
          = ["/m/view/frontend/templates/page.phtml", "/t/Acme_Module/templates/page.phtml"])
    ∧ findFront c6WitnessState c6WitnessFs "Acme_Module" "page.phtml"
        = ((["frontend", "base"].map
            (fun a => joinPath "/m" ["view", a, "templates", "page.phtml"])).filter
              (fun p => p ∈ c6WitnessFs)
          ++ (c6WitnessState.list_front_themes_paths.map
            (fun tp => joinPath tp ["Acme_Module", "templates", "page.phtml"])).filter
              (fun p => p ∈ c6WitnessFs)) := by
  refine ⟨⟨by decide, by decide⟩, ?_⟩
  exact ((c6_template_candidates c6WitnessState c6WitnessFs "Acme_Module" "page.phtml"
    "/m").1 (by decide)).1

/-! ## C7: scanning failure semantics -/

/-- The read function for the C7 counterexample: `f1` is unreadable,
`f2` is a readable require-config contributing one alias. -/
def c7Read : String → Option (List Fact) :=
  fun p => if p = "f1" then none else some [.jsMap .Base "k" "v"]

/-- Counterexample for C7 as stated: with `f1` unreadable and `f2`
readable, the JS bulk scan panics on `f1` (modelled by `Except.error`
carrying the `expect` message, which aborts the job) and `f2` is never
indexed — the claim instead requires the failure to be logged, `f1`
skipped, and the scan to continue with `f2`, whose facts the second
conjunct shows a continuing scan would have contributed. -/
theorem c7_read_failure_aborts_scan :
    processGlob 1 c7Read [.ok "f1", .ok "f2"] State.new
      = .error "Should have been able to read the file"
    ∧ processGlob 1 c7Read [.ok "f2"] State.new
      = .ok (State.new.indexOps 1 "f2" [.jsMap .Base "k" "v"]) := by
  constructor
  · rfl
  · rfl

/-- C7 (amended): per-entry glob failures are silently skipped by the
JS scan (`filter_map(Result::ok)`, no logging), but an unreadable file
panics (`expect`), aborting that scan job with the remaining files
unprocessed; in the PHP registration scan both a fallible glob entry
(`panic!("buhu")`) and an unreadable file panic.  The panic unwinds the
worker thread, not the whole server process. -/
theorem c7_scan_failure_semantics (fuel : Nat)
    (read : String → Option (List Fact)) (readPhp : String → Option (List String))
    (e : Unit) (rest : List (Except Unit String)) (p : String) (s : State)
    (hread : read p = none) (hphp : readPhp p = none) :
    processGlob fuel read (.error e :: rest) s = processGlob fuel read rest s
    ∧ processGlob fuel read (.ok p :: rest) s
        = .error "Should have been able to read the file"
    ∧ processRegistrations readPhp (.error e :: rest) s = .error "buhu"
    ∧ processRegistrations readPhp (.ok p :: rest) s
        = .error "Should have been able to read the file" := by
  refine ⟨rfl, ?_, rfl, ?_⟩
  · simp [processGlob, processGlobGo, indexFileJs, hread]
  · simp [processRegistrations, hphp]

/-- An always-failing PHP read, for the C7 witness. -/
def c7ReadPhp : String → Option (List String) := fun _ => none

/-- Witness for C7 at concrete inputs. -/
theorem c7_scan_failure_semantics_witness :
    (c7Read "f1" = none ∧ c7ReadPhp "f1" = none)
    ∧ (processGlob 1 c7Read [.error (), .ok "f2"] State.new
        = processGlob 1 c7Read [.ok "f2"] State.new
      ∧ processGlob 1 c7Read [.ok "f1", .ok "f2"] State.new
          = .error "Should have been able to read the file"
      ∧ processRegistrations c7ReadPhp [.error (), .ok "f2"] State.new = .error "buhu"
      ∧ processRegistrations c7ReadPhp [.ok "f1", .ok "f2"] State.new
          = .error "Should have been able to read the file") :=
  ⟨⟨rfl, rfl⟩, c7_scan_failure_semantics 1 c7Read c7ReadPhp () [.ok "f2"] "f1"
    State.new rfl rfl⟩

end M2

namespace M2

/-! ## Congruence and access lemmas for the mixin path -/

theorem Areas3.get_set_self {α : Type} (t : Areas3 α) (a : M2Area) (v : α) :
    (t.set a v).get a = v := by
  cases a <;> rfl

theorem Areas3.get_set_ne {α : Type} (t : Areas3 α) (a b : M2Area) (v : α)
    (h : b ≠ a) : (t.set a v).get b = t.get b := by
  cases a <;> cases b <;> first | rfl | exact absurd rfl h

theorem maybeTrack_js_paths (s : State) (t : Trackee) :
    (s.maybeTrack t).js_paths = s.js_paths := by
  cases h : s.source_file <;> simp [State.maybeTrack, h]

theorem maybeTrack_js_maps (s : State) (t : Trackee) :
    (s.maybeTrack t).js_maps = s.js_maps := by
  cases h : s.source_file <;> simp [State.maybeTrack, h]

theorem maybeTrack_js_mixins (s : State) (t : Trackee) :
    (s.maybeTrack t).js_mixins = s.js_mixins := by
  cases h : s.source_file <;> simp [State.maybeTrack, h]

theorem maybeTrack_module_paths (s : State) (t : Trackee) :
    (s.maybeTrack t).module_paths = s.module_paths := by
  cases h : s.source_file <;> simp [State.maybeTrack, h]

theorem resolvePathsGo_congr (s s' : State) (area : M2Area) (text : String)
    (h1 : s'.js_paths = s.js_paths) (keys : List String) (res : String) :
    resolvePathsGo s' area text keys res = resolvePathsGo s area text keys res := by
  induction keys generalizing res with
  | nil => rfl
  | cons p rest ih =>
    have hg : s'.get_component_path p area = s.get_component_path p area := by
      unfold State.get_component_path
      rw [h1]
    rw [resolvePathsGo, resolvePathsGo, hg]
    by_cases hc : text = p ∨ strStartsWith text (p ++ "/") = true
    · rw [if_pos hc, if_pos hc]
      cases s.get_component_path p area with
      | none => rfl
      | some np => exact ih _
    · rw [if_neg hc, if_neg hc]
      exact ih _

theorem resolvePaths_congr (s s' : State) (text : String) (area : M2Area)
    (h1 : s'.js_paths = s.js_paths) :
    resolvePaths s' text area = resolvePaths s text area := by
  unfold resolvePaths State.get_component_paths_for_area
  rw [h1]
  exact resolvePathsGo_congr s s' area text h1 _ _

theorem resolveMapsFuel_congr (fuel : Nat) (s s' : State)
    (h2 : s'.js_maps = s.js_maps) (text : String) (area : M2Area) :
    resolveMapsFuel fuel s' text area = resolveMapsFuel fuel s text area := by
  induction fuel generalizing text area with
  | zero => rfl
  | succ n ih =>
    have hg : s'.get_component_map text area = s.get_component_map text area := by
      unfold State.get_component_map
      rw [h2]
    rw [resolveMapsFuel, resolveMapsFuel, hg]
    cases s.get_component_map text area with
    | some t => exact ih t area
    | none =>
      cases area.lower_area with
      | none => rfl
      | some a => exact ih text a

theorem resolvedTextToComponent_congr (s s' : State) (text path : String)
    (h3 : s'.module_paths = s.module_paths) :
    resolvedTextToComponent s' text path = resolvedTextToComponent s text path := by
  have hg : s'.get_module_path = s.get_module_path := by
    funext m
    unfold State.get_module_path
    rw [h3]
  unfold resolvedTextToComponent
  rw [hg]

theorem textToComponentF_congr (fuel : Nat) (s s' : State)
    (h1 : s'.js_paths = s.js_paths) (h2 : s'.js_maps = s.js_maps)
    (h3 : s'.module_paths = s.module_paths) (text path : String) :
    textToComponentF fuel s' text path = textToComponentF fuel s text path := by
  unfold textToComponentF
  dsimp only
  rw [resolvePaths_congr s s' _ _ h1]
  cases resolvePaths s _ (getArea path) with
  | none => rfl
  | some t =>
    show (match resolveMapsFuel fuel s' t (getArea path) with
      | none => none
      | some t' => resolvedTextToComponent s' t' path)
      = (match resolveMapsFuel fuel s t (getArea path) with
      | none => none
      | some t' => resolvedTextToComponent s t' path)
    rw [resolveMapsFuel_congr fuel s s' h2 t (getArea path)]
    cases resolveMapsFuel fuel s t (getArea path) with
    | none => rfl
    | some t' =>
      show resolvedTextToComponent s' t' path = resolvedTextToComponent s t' path
      exact resolvedTextToComponent_congr s s' t' path h3

theorem alGet_map_push {α : Type} (m : List (String × List α)) (k : String) (x : α) :
    alGet (m.map (fun p => if p.1 = k then (p.1, p.2 ++ [x]) else p)) k
      = (alGet m k).map (· ++ [x]) := by
  induction m with
  | nil => rfl
  | cons p rest ih =>
    obtain ⟨a, v⟩ := p
    by_cases h : a = k
    · simp only [List.map_cons, if_pos h]
      rw [alGet_cons, alGet_cons, if_pos h, if_pos h]
      rfl
    · simp only [List.map_cons, if_neg h]
      rw [alGet_cons, alGet_cons, if_neg h, if_neg h]
      exact ih

theorem alGet_alPush_self {α : Type} (m : List (String × List α)) (k : String) (x : α) :
    alGet (alPush m k x) k = some ((alGet m k).getD [] ++ [x]) := by
  unfold alPush
  cases h : alGet m k with
  | none =>
    simp [alGet_cons]
  | some v =>
    simp only [Option.isSome_some, if_true]
    rw [alGet_map_push, h]
    rfl

/-! ## C10: eager mixin-target resolution -/

/-- C10: `add_component_mixin` resolves the raw target through
`text_to_component` against the state current at insertion (the mixin
key is tracked either way): an unresolvable target stores nothing in the
mixin table, a resolvable one appends exactly the resolved component to
the key's entry, and a key with no stored entry yields the empty list
from `get_component_mixins_for_area`. -/
theorem c10_mixin_targets_resolved_eagerly (fuel : Nat) (s : State) (area : M2Area)
    (name1 val1 : String) (h1 : textToComponentF fuel s val1 "" = none)
    (name2 val2 : String) (c : M2Item) (h2 : textToComponentF fuel s val2 "" = some c)
    (name3 : String) (h3 : alGet (s.js_mixins.get area) name3 = none) :
    (s.add_component_mixin fuel name1 val1 area).js_mixins = s.js_mixins
    ∧ (s.add_component_mixin fuel name2 val2 area).get_component_mixins_for_area
        name2 area
      = s.get_component_mixins_for_area name2 area ++ [c]
    ∧ s.get_component_mixins_for_area name3 area = [] := by
  refine ⟨?_, ?_, ?_⟩
  · unfold State.add_component_mixin
    dsimp only
    rw [textToComponentF_congr fuel s (s.maybeTrack (.JsMixin area name1))
      (maybeTrack_js_paths s _) (maybeTrack_js_maps s _) (maybeTrack_module_paths s _)
      val1 "", h1]
    exact maybeTrack_js_mixins s _
  · unfold State.add_component_mixin
    dsimp only
    rw [textToComponentF_congr fuel s (s.maybeTrack (.JsMixin area name2))
      (maybeTrack_js_paths s _) (maybeTrack_js_maps s _) (maybeTrack_module_paths s _)
      val2 "", h2]
    unfold State.get_component_mixins_for_area
    rw [Areas3.get_set_self, maybeTrack_js_mixins s _, alGet_alPush_self]
    rfl
  · unfold State.get_component_mixins_for_area
    rw [h3]
    rfl

/-- A state with a registered module, for the C10 witness. -/
def c10WitnessState : State :=
  State.new.add_module_path "Acme_Module" "/ws/Acme_Module"

/-- Witness for C10 at concrete inputs: an unresolvable target (its
module unregistered) stores nothing, a resolvable one stores exactly
its resolved component, an absent key yields `[]`. -/
theorem c10_mixin_targets_resolved_eagerly_witness :
    (textToComponentF 1 c10WitnessState "Nope_Mod/js/x" "" = none
      ∧ textToComponentF 1 c10WitnessState "Acme_Module/js/x" ""
          = some (.ModComponent "Acme_Module" "js/x" "/ws/Acme_Module")
      ∧ alGet (c10WitnessState.js_mixins.get .Base) "absent-key" = none)
    ∧ ((c10WitnessState.add_component_mixin 1 "k1" "Nope_Mod/js/x" .Base).js_mixins
        = c10WitnessState.js_mixins
      ∧ (c10WitnessState.add_component_mixin 1 "k2" "Acme_Module/js/x" .Base).get_component_mixins_for_area
          "k2" .Base
        = c10WitnessState.get_component_mixins_for_area "k2" .Base
          ++ [.ModComponent "Acme_Module" "js/x" "/ws/Acme_Module"]
      ∧ c10WitnessState.get_component_mixins_for_area "absent-key" .Base = []) :=
  ⟨⟨by decide, by decide, by decide⟩,
    c10_mixin_targets_resolved_eagerly 1 c10WitnessState .Base
      "k1" "Nope_Mod/js/x" (by decide)
      "k2" "Acme_Module/js/x" (.ModComponent "Acme_Module" "js/x" "/ws/Acme_Module")
      (by decide)
      "absent-key" (by decide)⟩

end M2

namespace M2

/-! ## C4: the three resolution stages -/

/-- A Base-area `JsPath` table with two keys that both prefix-match the
id `a/b/c`. -/
def c4PathsState : State :=
  { State.new with js_paths := ⟨[], [], [("a", "X"), ("a/b", "Y")]⟩ }

/-- Counterexample for C4 as stated: with path substitutions `a → X`
and `a/b → Y` registered, the id `a/b/c` matches both keys and
`resolve_paths` applies *every* matching substitution in
table-iteration order against the running result (here yielding
`X/b/c`), not the longest matching prefix substitution alone, which
would yield `Y/c`. -/
theorem c4_not_longest_prefix_counterexample :
    resolvePaths c4PathsState "a/b/c" .Base = some "X/b/c"
    ∧ c4PathsState.get_component_path "a/b" .Base = some "Y"
    ∧ strStartsWith "a/b/c" ("a/b" ++ "/") = true
    ∧ replaceFirst "a/b/c" "a/b" "Y" = "Y/c"
    ∧ ("X/b/c" : String) ≠ "Y/c"
    ∧ textToComponentF 1 c4PathsState "a/b/c" "" = some (.Component "X/b/c") :=
  ⟨by decide, by decide, by decide, by decide, by decide, by decide⟩

theorem resolvePathsGo_no_match (s : State) (area : M2Area) (text : String)
    (keys : List String) (res : String)
    (h : keys.filter
      (fun p => decide (text = p) || strStartsWith text (p ++ "/")) = []) :
    resolvePathsGo s area text keys res = some res := by
  induction keys generalizing res with
  | nil => rfl
  | cons p rest ih =>
    rw [List.filter_cons] at h
    by_cases hc : text = p ∨ strStartsWith text (p ++ "/") = true
    · exfalso
      have : (decide (text = p) || strStartsWith text (p ++ "/")) = true := by
        rcases hc with hc | hc
        · simp [hc]
        · simp [hc]
      rw [if_pos this] at h
      exact List.cons_ne_nil _ _ h
    · have : (decide (text = p) || strStartsWith text (p ++ "/")) ≠ true := by
        intro habs
        rcases Bool.or_eq_true_iff.mp habs with habs | habs
        · exact hc (Or.inl (of_decide_eq_true habs))
        · exact hc (Or.inr habs)
      rw [if_neg this] at h
      rw [resolvePathsGo, if_neg hc]
      exact ih res h

theorem resolvePathsGo_single_match (s : State) (area : M2Area) (text k v : String)
    (hget : s.get_component_path k area = some v) (keys : List String) (res : String)
    (h : keys.filter
      (fun p => decide (text = p) || strStartsWith text (p ++ "/")) = [k]) :
    resolvePathsGo s area text keys res = some (replaceFirst res k v) := by
  induction keys generalizing res with
  | nil => exact absurd h.symm (List.cons_ne_nil _ _)
  | cons p rest ih =>
    rw [List.filter_cons] at h
    by_cases hc : text = p ∨ strStartsWith text (p ++ "/") = true
    · have hb : (decide (text = p) || strStartsWith text (p ++ "/")) = true := by
        rcases hc with hc | hc
        · simp [hc]
        · simp [hc]
      rw [if_pos hb] at h
      have hpk : p = k := (List.cons_eq_cons.mp h).1
      have hrest : rest.filter
          (fun p => decide (text = p) || strStartsWith text (p ++ "/")) = [] :=
        (List.cons_eq_cons.mp h).2
      subst hpk
      rw [resolvePathsGo, if_pos hc, hget]
      exact resolvePathsGo_no_match s area text rest _ hrest
    · have hb : (decide (text = p) || strStartsWith text (p ++ "/")) ≠ true := by
        intro habs
        rcases Bool.or_eq_true_iff.mp habs with habs | habs
        · exact hc (Or.inl (of_decide_eq_true habs))
        · exact hc (Or.inr habs)
      rw [if_neg hb] at h
      rw [resolvePathsGo, if_neg hc]
      exact ih res h

/-- C4 (amended): `text_to_component` runs its stages in fixed order —
a literal `text!` prefix is stripped first (exactly once), then *every*
registered `JsPath` key of the area that equals or slash-prefixes the
raw id has its substitution applied to the running result in
table-iteration order (so when exactly one key matches, that key's —
trivially the longest matching — substitution is applied), and only
then is the alias table consulted; consequently
`text!Acme_Module/templates/tpl.html` resolves, in a state with
`Acme_Module` registered and no path or alias entries, to a module-HTML
classification and not a library component. -/
theorem c4_resolution_stage_order (fuel : Nat) (s s2 : State)
    (t path text k v mp : String) (area : M2Area)
    (hns : strStartsWith t "text!" = false)
    (hfil : (s.get_component_paths_for_area area).filter
      (fun p => decide (text = p) || strStartsWith text (p ++ "/")) = [k])
    (hget : s.get_component_path k area = some v)
    (hm : s2.get_module_path "Acme_Module" = some mp)
    (hpaths : s2.js_paths = ⟨[], [], []⟩)
    (hmaps : s2.js_maps = ⟨[], [], []⟩) :
    textToComponentF fuel s (String.mk ("text!".data ++ t.data)) path
      = textToComponentF fuel s t path
    ∧ resolvePaths s text area = some (replaceFirst text k v)
    ∧ textToComponentF (fuel + 3) s2 "text!Acme_Module/templates/tpl.html" path
      = some (.ModHtml "Acme_Module" "templates/tpl.html" mp) := by
  refine ⟨?_, ?_, ?_⟩
  · obtain ⟨tl⟩ := t
    unfold textToComponentF
    dsimp only
    have hpre : strStartsWith (String.mk ("text!".data ++ tl)) "text!" = true := by
      unfold strStartsWith
      show "text!".data.isPrefixOf ("text!".data ++ tl) = true
      rw [List.isPrefixOf_iff_prefix]
      exact List.prefix_append _ _
    have hdrop : List.drop 5 ((String.mk ("text!".data ++ tl)).data) = tl := by
      show List.drop 5 ("text!".data ++ tl) = tl
      have h5 : ("text!".data).length = 5 := rfl
      rw [← h5, List.drop_left]
    simp only [hpre, hns, if_true, Bool.false_eq_true, if_false, hdrop]
  · unfold resolvePaths
    exact resolvePathsGo_single_match s area text k v hget _ text hfil
  · have hstrip : strStartsWith "text!Acme_Module/templates/tpl.html" "text!" = true := by
      decide
    have hdrop : String.mk
        (List.drop 5 ("text!Acme_Module/templates/tpl.html".data))
        = "Acme_Module/templates/tpl.html" := by decide
    have hkeys : ∀ a : M2Area, s2.get_component_paths_for_area a = [] := by
      intro a
      unfold State.get_component_paths_for_area
      rw [hpaths]
      cases a <;> rfl
    have hnone : ∀ (x : String) (a : M2Area), s2.get_component_map x a = none := by
      intro x a
      unfold State.get_component_map
      rw [hmaps]
      cases a <;> rfl
    have hresolved : resolvedTextToComponent s2 "Acme_Module/templates/tpl.html" path
        = some (.ModHtml "Acme_Module" "templates/tpl.html" mp) := by
      have he : strEndsWith "Acme_Module/templates/tpl.html" ".html" = true := by decide
      have hsp : splitN2 "Acme_Module/templates/tpl.html"
          = ("Acme_Module", some "templates/tpl.html") := by decide
      simp only [resolvedTextToComponent, he, hsp, hm, if_true]
    have hpaths' : resolvePaths s2 "Acme_Module/templates/tpl.html" (getArea path)
        = some "Acme_Module/templates/tpl.html" := by
      unfold resolvePaths
      rw [hkeys]
      rfl
    have hmaps' : resolveMapsFuel (fuel + 3) s2 "Acme_Module/templates/tpl.html"
        (getArea path) = some "Acme_Module/templates/tpl.html" := by
      cases harea : getArea path
      · simp only [resolveMapsFuel, hnone, M2Area.lower_area]
      · simp only [resolveMapsFuel, hnone, M2Area.lower_area]
      · simp only [resolveMapsFuel, hnone, M2Area.lower_area]
    unfold textToComponentF
    dsimp only
    simp only [hstrip, if_true, hdrop, hpaths', hmaps', hresolved]

/-- State and values instantiating the C4 witness: one matching path
key under Frontend, and a second state with `Acme_Module` registered
and empty path/alias tables. -/
def c4WitnessState : State :=
  { State.new with js_paths := ⟨[("legacy", "Acme_Module/js")], [], []⟩ }

/-- The second C4 witness state. -/
def c4WitnessState2 : State :=
  State.new.add_module_path "Acme_Module" "/ws/Acme_Module"

/-- Witness for C4 at concrete inputs. -/
theorem c4_resolution_stage_order_witness :
    (strStartsWith "legacy/view" "text!" = false
      ∧ (c4WitnessState.get_component_paths_for_area .Frontend).filter
          (fun p => decide (("legacy/view" : String) = p)
            || strStartsWith "legacy/view" (p ++ "/")) = ["legacy"]
      ∧ c4WitnessState.get_component_path "legacy" .Frontend = some "Acme_Module/js"
      ∧ c4WitnessState2.get_module_path "Acme_Module" = some "/ws/Acme_Module"
      ∧ c4WitnessState2.js_paths = ⟨[], [], []⟩
      ∧ c4WitnessState2.js_maps = ⟨[], [], []⟩)
    ∧ (textToComponentF 2 c4WitnessState
        (String.mk ("text!".data ++ ("legacy/view" : String).data)) "/p"
        = textToComponentF 2 c4WitnessState "legacy/view" "/p"
      ∧ resolvePaths c4WitnessState "legacy/view" .Frontend
        = some (replaceFirst "legacy/view" "legacy" "Acme_Module/js")
      ∧ textToComponentF (2 + 3) c4WitnessState2
          "text!Acme_Module/templates/tpl.html" "/p"
        = some (.ModHtml "Acme_Module" "templates/tpl.html" "/ws/Acme_Module")) :=
  ⟨⟨by decide, by decide, by decide, by decide, by decide, by decide⟩,
    c4_resolution_stage_order 2 c4WitnessState c4WitnessState2
      "legacy/view" "/p" "legacy/view" "legacy" "Acme_Module/js" "/ws/Acme_Module"
      .Frontend (by decide) (by decide) (by decide) (by decide) (by decide) (by decide)⟩

end M2

namespace M2

/-! ## C2: longest-prefix class resolution -/

/-- The class-resolution rule as the spec words it (section 4.2): try
the registered prefixes from the longest proper one (all segments but
the last) downwards and return the module path of the first — hence
longest — registered prefix, together with the remaining segments.
`j` is the number of leading segments still to be tried as a prefix. -/
def splitClassSpecGo (s : State) (segs : List String) : Nat → Option (String × List String)
  | 0 => none
  | j + 1 =>
    match s.get_module_path (strIntercalate "\\" (segs.take j)) with
    | some mp => some (mp, segs.drop j)
    | none => splitClassSpecGo s segs j

/-- The spec-worded class resolution: longest registered proper prefix
wins, popped segments are the suffix. -/
def split_class_spec (s : State) (cls : String) : Option (String × List String) :=
  splitClassSpecGo s (strSplitC cls '\\') (strSplitC cls '\\').length

theorem splitClassAux_eq_spec (s : State) (segs : List String) (j : Nat)
    (hj : j ≤ segs.length) :
    State.splitClassAux s ((segs.take j).reverse) ((segs.drop j).reverse)
      = splitClassSpecGo s segs j := by
  induction j with
  | zero => rfl
  | succ j ih =>
    have hj' : j < segs.length := Nat.lt_of_lt_of_le (Nat.lt_succ_self j) hj
    have htake : segs.take (j + 1) = segs.take j ++ [segs[j]] := by
      rw [List.take_succ, List.getElem?_eq_getElem hj']
      rfl
    have hdrop : segs.drop j = segs[j] :: segs.drop (j + 1) :=
      List.drop_eq_getElem_cons hj'
    rw [htake, List.reverse_append, List.reverse_singleton]
    show State.splitClassAux s (segs[j] :: (segs.take j).reverse) _
      = splitClassSpecGo s segs (j + 1)
    rw [State.splitClassAux]
    simp only [List.reverse_reverse]
    rw [splitClassSpecGo]
    have hsuffix : (segs.drop (j + 1)).reverse ++ [segs[j]] = (segs.drop j).reverse := by
      rw [hdrop, List.reverse_cons]
    rw [hsuffix]
    cases s.get_module_path (strIntercalate "\\" (segs.take j)) with
    | some mp =>
      show some (mp, (segs.drop j).reverse.reverse) = some (mp, segs.drop j)
      rw [List.reverse_reverse]
    | none => exact ih (Nat.le_of_lt hj')

/-- C2 (amended): `split_class_to_path_and_suffix` pops segments from
the end and returns, together with the popped segments as suffix, the
path of the *longest* proper prefix of the class identifier that is
registered in the module-path table — proved by equivalence with the
spec-worded search that tries the longest proper prefix first.  (The
claim's `Acme_Base_Sub` example, however, fails on the code: see the
counterexample.) -/
theorem c2_longest_registered_prefix_wins (s : State) (cls : String) :
    s.split_class_to_path_and_suffix cls = split_class_spec s cls := by
  unfold State.split_class_to_path_and_suffix split_class_spec
  have h := splitClassAux_eq_spec s (strSplitC cls '\\') (strSplitC cls '\\').length
    le_rfl
  rw [List.take_length, List.drop_length] at h
  exact h

/-- Both modules registered through the registration pipeline of
src/php.rs (name as-is plus the namespace-derived alias of
`register_param_to_module`). -/
def c2State : State :=
  registerModule (registerModule State.new "Acme_Base" "/base") "Acme_Base_Sub" "/sub"

/-- Counterexample for C2's example: `Acme_Base_Sub` has two
underscores, so `register_param_to_module` derives *no* namespace alias
for it and `Acme\Base\Sub` is never a registered key; resolving
`Acme\Base\Sub\Model\Foo` therefore falls back to the registered prefix
`Acme\Base` and selects `Acme_Base`'s path `/base`, not
`Acme_Base_Sub`'s path `/sub` as the claim requires. -/
theorem c2_acme_base_sub_counterexample :
    c2State.get_module_path "Acme_Base_Sub" = some "/sub"
    ∧ c2State.get_module_path "Acme_Base" = some "/base"
    ∧ registerParamToModule "Acme_Base_Sub" = none
    ∧ c2State.get_module_path "Acme\\Base\\Sub" = none
    ∧ c2State.split_class_to_path_and_suffix "Acme\\Base\\Sub\\Model\\Foo"
        = some ("/base", ["Sub", "Model", "Foo"])
    ∧ ("/base" : String) ≠ "/sub" :=
  ⟨by decide, by decide, by decide, by decide, by decide, by decide⟩

end M2

namespace M2

/-! ## C1: retract/reinsert round trip

`clear_from_source` removes, trackee by trackee, exactly what a file's
extraction inserted.  The development below characterises the removal
loop as one filtering pass per table (`clearTables`), proves that
applying one extracted fact and then clearing the file is the same as
clearing the file directly (`clear_applyFact`), lifts that over a whole
extraction (`clear_foldl_applyFact`) and concludes that
`set_file F ops1` followed by `set_file F ops2` is the very same state
as `set_file F ops2` alone. -/

/-- The per-table removal predicate for a trackee list: does the list
demand removal of module `m` from the module vector? -/
def remModule (ts : List Trackee) (m : String) : Bool :=
  ts.any (fun t => decide (t = .Module m))

def remModulePath (ts : List Trackee) (k : String) : Bool :=
  ts.any (fun t => decide (t = .ModulePath k))

def remFront (ts : List Trackee) (k : String) : Bool :=
  ts.any (fun t => decide (t = .Themes .Frontend k) || decide (t = .Themes .Base k))

def remAdmin (ts : List Trackee) (k : String) : Bool :=
  ts.any (fun t => decide (t = .Themes .Adminhtml k) || decide (t = .Themes .Base k))

def remJsMap (ts : List Trackee) (a : M2Area) (k : String) : Bool :=
  ts.any (fun t => decide (t = .JsMap a k))

def remJsPath (ts : List Trackee) (a : M2Area) (k : String) : Bool :=
  ts.any (fun t => decide (t = .JsPath a k))

def remJsMixin (ts : List Trackee) (a : M2Area) (k : String) : Bool :=
  ts.any (fun t => decide (t = .JsMixin a k))

def clearTables (ts : List Trackee) (s : State) : State :=
  { s with
    modules := s.modules.filter (fun m => !remModule ts m)
    module_paths := s.module_paths.filter (fun p => !remModulePath ts p.1)
    front_themes := s.front_themes.filter (fun p => !remFront ts p.1)
    admin_themes := s.admin_themes.filter (fun p => !remAdmin ts p.1)
    js_maps := ⟨s.js_maps.fr.filter (fun p => !remJsMap ts .Frontend p.1),
      s.js_maps.ad.filter (fun p => !remJsMap ts .Adminhtml p.1),
      s.js_maps.ba.filter (fun p => !remJsMap ts .Base p.1)⟩
    js_paths := ⟨s.js_paths.fr.filter (fun p => !remJsPath ts .Frontend p.1),
      s.js_paths.ad.filter (fun p => !remJsPath ts .Adminhtml p.1),
      s.js_paths.ba.filter (fun p => !remJsPath ts .Base p.1)⟩
    js_mixins := ⟨s.js_mixins.fr.filter (fun p => !remJsMixin ts .Frontend p.1),
      s.js_mixins.ad.filter (fun p => !remJsMixin ts .Adminhtml p.1),
      s.js_mixins.ba.filter (fun p => !remJsMixin ts .Base p.1)⟩ }

theorem decide_comm {α : Type} [DecidableEq α] (a b : α) :
    decide (a = b) = decide (b = a) := by
  by_cases h : a = b
  · simp [h]
  · have h' : ¬b = a := fun hh => h hh.symm
    simp [h, h']

theorem foldl_removeTrackee_eq_clearTables (ts : List Trackee) (s : State) :
    ts.foldl State.removeTrackee s = clearTables ts s := by
  induction ts generalizing s with
  | nil =>
    simp [clearTables, remModule, remModulePath, remFront, remAdmin, remJsMap,
      remJsPath, remJsMixin]
  | cons t ts ih =>
    rw [List.foldl_cons, ih]
    cases t with
    | Module m =>
      unfold clearTables State.removeTrackee
      simp only [remModule, remModulePath, remFront, remAdmin, remJsMap, remJsPath,
        remJsMixin, List.any_cons, List.filter_filter, Bool.not_or]
      simp [ne_eq, decide_not, decide_comm, Bool.and_comm]
    | ModulePath m =>
      unfold clearTables State.removeTrackee alRemove
      simp only [remModule, remModulePath, remFront, remAdmin, remJsMap, remJsPath,
        remJsMixin, List.any_cons, List.filter_filter, Bool.not_or]
      simp [ne_eq, decide_not, decide_comm, Bool.and_comm]
    | JsMap a k =>
      cases a <;>
      · unfold clearTables State.removeTrackee alRemove Areas3.set Areas3.get
        simp only [remModule, remModulePath, remFront, remAdmin, remJsMap, remJsPath,
          remJsMixin, List.any_cons, List.filter_filter, Bool.not_or]
        simp [ne_eq, decide_not, decide_comm, Bool.and_comm]
    | JsPath a k =>
      cases a <;>
      · unfold clearTables State.removeTrackee alRemove Areas3.set Areas3.get
        simp only [remModule, remModulePath, remFront, remAdmin, remJsMap, remJsPath,
          remJsMixin, List.any_cons, List.filter_filter, Bool.not_or]
        simp [ne_eq, decide_not, decide_comm, Bool.and_comm]
    | JsMixin a k =>
      cases a <;>
      · unfold clearTables State.removeTrackee alRemove Areas3.set Areas3.get
        simp only [remModule, remModulePath, remFront, remAdmin, remJsMap, remJsPath,
          remJsMixin, List.any_cons, List.filter_filter, Bool.not_or]
        simp [ne_eq, decide_not, decide_comm, Bool.and_comm]
    | Themes a k =>
      cases a <;>
      · unfold clearTables State.removeTrackee alRemove
        simp only [remModule, remModulePath, remFront, remAdmin, remJsMap, remJsPath,
          remJsMixin, List.any_cons, List.filter_filter, Bool.not_or]
        simp [ne_eq, decide_not, decide_comm, Bool.and_comm, Bool.and_assoc,
          Bool.and_left_comm]

end M2

namespace M2

theorem alGet_eq_none_forall {β : Type} (tbl : List (String × β)) (k : String) :
    alGet tbl k = none → ∀ a ∈ tbl, a.1 ≠ k := by
  induction tbl with
  | nil =>
    intro _ a ha
    cases ha
  | cons p rest ih =>
    intro h a ha
    rw [alGet_cons] at h
    by_cases hp : p.1 = k
    · rw [if_pos hp] at h
      cases h
    · rw [if_neg hp] at h
      cases ha with
      | head => exact hp
      | tail _ ha => exact ih h a ha

theorem pair_eta_key {β : Type} (a : String × β) (k : String) (hk : a.1 = k) :
    a = (k, a.2) := by
  rw [← hk]

theorem filter_ne_filter_q_id {β : Type} (tbl : List (String × β)) (k : String)
    (q : String × β → Bool) (h : alGet tbl k = none ∨ ∀ v, q (k, v) = false) :
    (tbl.filter q).filter (fun p => decide (p.1 ≠ k)) = tbl.filter q := by
  rw [List.filter_filter]
  apply List.filter_congr
  intro a ha
  rcases h with h | h
  · have := alGet_eq_none_forall tbl k h a ha
    simp [this]
  · by_cases hk : a.1 = k
    · have hq : q a = false := by
        rw [pair_eta_key a k hk]
        exact h a.2
      rw [hq]
      simp
    · simp [hk]

theorem filter_ne_filter_q_insert {β : Type} (tbl : List (String × β)) (k : String)
    (v : β) (q : String × β → Bool) (h : alGet tbl k = none ∨ ∀ w, q (k, w) = false) :
    ((alInsert tbl k v).filter q).filter (fun p => decide (p.1 ≠ k))
      = tbl.filter q := by
  unfold alInsert alRemove
  rw [List.filter_filter, List.filter_cons]
  rw [if_neg (by simp)]
  rw [List.filter_filter]
  apply List.filter_congr
  intro a ha
  rcases h with h | h
  · have := alGet_eq_none_forall tbl k h a ha
    simp [this]
  · by_cases hk : a.1 = k
    · have hq : q a = false := by
        rw [pair_eta_key a k hk]
        exact h a.2
      rw [hq]
      simp
    · simp [hk]

theorem filter_q_map_entry {β : Type} (tbl : List (String × β)) (k : String)
    (f : β → β) (q : String × β → Bool) (hq : ∀ w, q (k, w) = false) :
    (tbl.map (fun e => if e.1 = k then (e.1, f e.2) else e)).filter q
      = tbl.filter q := by
  induction tbl with
  | nil => rfl
  | cons e rest ih =>
    rw [List.map_cons, List.filter_cons, List.filter_cons]
    by_cases hk : e.1 = k
    · rw [if_pos hk]
      have h1 : ¬ q (e.1, f e.2) = true := by
        rw [hk]
        simp [hq (f e.2)]
      have h2 : ¬ q e = true := by
        rw [pair_eta_key e k hk]
        simp [hq e.2]
      rw [if_neg h1, if_neg h2]
      exact ih
    · rw [if_neg hk]
      by_cases hqe : q e = true
      · rw [if_pos hqe, if_pos hqe, ih]
      · rw [if_neg hqe, if_neg hqe, ih]

theorem filter_ne_filter_q_push {β : Type} (tbl : List (String × List β)) (k : String)
    (c : β) (q : String × List β → Bool)
    (h : alGet tbl k = none ∨ ∀ w, q (k, w) = false) :
    ((alPush tbl k c).filter q).filter (fun p => decide (p.1 ≠ k))
      = tbl.filter q := by
  unfold alPush
  cases hg : alGet tbl k with
  | none =>
    simp only [hg, Option.isSome_none, Bool.false_eq_true, if_false]
    rw [List.filter_filter, List.filter_cons]
    rw [if_neg (by simp)]
    apply List.filter_congr
    intro a ha
    have := alGet_eq_none_forall tbl k hg a ha
    simp [this]
  | some v =>
    rcases h with h | h
    · rw [hg] at h
      cases h
    · simp only [hg, Option.isSome_some, if_true]
      rw [List.filter_filter]
      rw [filter_q_map_entry tbl k (fun l => l ++ [c])
        (fun p => decide (p.1 ≠ k) && q p) (by intro w; simp [h w])]
      apply List.filter_congr
      intro a ha
      by_cases hk : a.1 = k
      · have hq : q a = false := by
          rw [pair_eta_key a k hk]
          exact h a.2
        rw [hq]
        simp [hk]
      · simp [hk]

theorem filter_ne_filter_q_append_mod (mods : List String) (m : String)
    (q : String → Bool) (h : m ∉ mods ∨ q m = false) :
    ((mods ++ [m]).filter q).filter (fun x => decide (x ≠ m)) = mods.filter q := by
  rw [List.filter_filter, List.filter_append]
  rw [show List.filter (fun a => decide (a ≠ m) && q a) [m] = [] by simp]
  rw [List.append_nil]
  apply List.filter_congr
  intro a ha
  rcases h with h | h
  · have : a ≠ m := fun hh => h (hh ▸ ha)
    simp [this]
  · by_cases hk : a = m
    · rw [hk, h]
      simp
    · simp [hk]

end M2

namespace M2

def keyAbsentB (t : Trackee) (s : State) : Bool :=
  match t with
  | .Module m => decide (m ∉ s.modules)
  | .ModulePath m => (alGet s.module_paths m).isNone
  | .JsMap a k => (alGet (s.js_maps.get a) k).isNone
  | .JsPath a k => (alGet (s.js_paths.get a) k).isNone
  | .JsMixin a k => (alGet (s.js_mixins.get a) k).isNone
  | .Themes .Frontend n => (alGet s.front_themes n).isNone
  | .Themes .Adminhtml n => (alGet s.admin_themes n).isNone
  | .Themes .Base n => (alGet s.front_themes n).isNone && (alGet s.admin_themes n).isNone

theorem clearTables_nil (s : State) : clearTables [] s = s := by
  simp [clearTables, remModule, remModulePath, remFront, remAdmin, remJsMap,
    remJsPath, remJsMixin]

theorem clearTables_append_one (ts : List Trackee) (t : Trackee) (s : State) :
    clearTables (ts ++ [t]) s = (clearTables ts s).removeTrackee t := by
  rw [← foldl_removeTrackee_eq_clearTables, ← foldl_removeTrackee_eq_clearTables,
    List.foldl_append]
  rfl

theorem alRemove_tlTrack (tl : List (String × List Trackee)) (F : String) (t : Trackee) :
    alRemove (State.tlTrack tl F t) F = alRemove tl F := by
  unfold State.tlTrack
  cases hg : (alGet tl F).isSome with
  | true =>
    rw [if_pos rfl]
    exact filter_q_map_entry tl F (fun l => l ++ [t]) (fun p => decide (p.1 ≠ F))
      (by intro w; simp)
  | false =>
    rw [if_neg (by simp)]
    rw [alRemove_cons, if_pos rfl]

theorem alGet_tlTrack_self (tl : List (String × List Trackee)) (F : String) (t : Trackee) :
    alGet (State.tlTrack tl F t) F = some ((alGet tl F).getD [] ++ [t]) := by
  unfold State.tlTrack
  cases hg : alGet tl F with
  | none =>
    rw [if_neg (by simp [hg])]
    rw [alGet_cons, if_pos rfl]
    rfl
  | some v =>
    rw [if_pos (by simp [hg])]
    rw [alGet_map_push, hg]
    rfl

theorem maybeTrack_eq (s : State) (F : String) (t : Trackee)
    (hsrc : s.source_file = some F) :
    s.maybeTrack t = { s with track_entities := State.tlTrack s.track_entities F t } := by
  unfold State.maybeTrack
  rw [hsrc]

theorem clear_eq_clearTables (s : State) (F : String) :
    s.clear_from_source F
      = clearTables ((alGet s.track_entities F).getD [])
          { s with track_entities := alRemove s.track_entities F } := by
  unfold State.clear_from_source
  cases hg : alGet s.track_entities F with
  | none =>
    rw [alRemove_of_not_mem _ _ hg]
    show s = clearTables [] { s with track_entities := s.track_entities }
    rw [clearTables_nil]
  | some ts =>
    show ts.foldl State.removeTrackee _ = clearTables ((some ts).getD []) _
    rw [foldl_removeTrackee_eq_clearTables]
    rfl

end M2

namespace M2

def trackeeOfFact : Fact → Trackee
  | .module m => .Module m
  | .modulePath m _ => .ModulePath m
  | .frontTheme n _ => .Themes .Frontend n
  | .adminTheme n _ => .Themes .Adminhtml n
  | .jsMap a k _ => .JsMap a k
  | .jsPath a k _ => .JsPath a k
  | .jsMixin a k _ => .JsMixin a k

theorem clear_applyFact (fuel : Nat) (F : String) (op : Fact) (s : State)
    (hsrc : s.source_file = some F)
    (hft : keyAbsentB (trackeeOfFact op) s = true
      ∨ trackeeOfFact op ∈ (alGet s.track_entities F).getD []) :
    (State.applyFact fuel s op).clear_from_source F = s.clear_from_source F := by
  cases op with
  | module m =>
    show (State.add_module s m).clear_from_source F = s.clear_from_source F
    unfold State.add_module
    rw [maybeTrack_eq s F _ hsrc]
    rw [clear_eq_clearTables, clear_eq_clearTables]
    show clearTables ((alGet (State.tlTrack s.track_entities F (.Module m)) F).getD []) _
      = _
    rw [alGet_tlTrack_self, alRemove_tlTrack]
    show clearTables ((alGet s.track_entities F).getD [] ++ [Trackee.Module m]) _ = _
    rw [clearTables_append_one]
    have hh : m ∉ s.modules
        ∨ (!remModule ((alGet s.track_entities F).getD []) m) = false := by
      rcases hft with hft | hft
      · left
        exact of_decide_eq_true hft
      · right
        have : remModule ((alGet s.track_entities F).getD []) m = true :=
          List.any_eq_true.mpr ⟨_, hft, by simp [trackeeOfFact]⟩
        rw [this]
        rfl
    unfold clearTables State.removeTrackee
    simp only [State.mk.injEq, and_true, true_and]
    refine filter_ne_filter_q_append_mod _ _ _ ?_
    exact hh
  | modulePath m p =>
    show (State.add_module_path s m p).clear_from_source F = s.clear_from_source F
    unfold State.add_module_path
    rw [maybeTrack_eq s F _ hsrc]
    rw [clear_eq_clearTables, clear_eq_clearTables]
    show clearTables ((alGet (State.tlTrack s.track_entities F (.ModulePath m)) F).getD []) _
      = _
    rw [alGet_tlTrack_self, alRemove_tlTrack]
    show clearTables ((alGet s.track_entities F).getD [] ++ [Trackee.ModulePath m]) _ = _
    rw [clearTables_append_one]
    have hh : alGet s.module_paths m = none
        ∨ ∀ w : String, (!remModulePath ((alGet s.track_entities F).getD []) m) = false := by
      rcases hft with hft | hft
      · left
        exact Option.isNone_iff_eq_none.mp hft
      · right
        intro w
        have : remModulePath ((alGet s.track_entities F).getD []) m = true :=
          List.any_eq_true.mpr ⟨_, hft, by simp [trackeeOfFact]⟩
        rw [this]
        rfl
    unfold clearTables State.removeTrackee alRemove
    simp only [State.mk.injEq, and_true, true_and]
    refine filter_ne_filter_q_insert _ _ _ _ ?_
    exact hh
  | frontTheme n p =>
    show (State.add_front_theme_path s n p).clear_from_source F = s.clear_from_source F
    unfold State.add_front_theme_path
    rw [maybeTrack_eq s F _ hsrc]
    rw [clear_eq_clearTables, clear_eq_clearTables]
    show clearTables
      ((alGet (State.tlTrack s.track_entities F (.Themes .Frontend n)) F).getD []) _ = _
    rw [alGet_tlTrack_self, alRemove_tlTrack]
    show clearTables
      ((alGet s.track_entities F).getD [] ++ [Trackee.Themes .Frontend n]) _ = _
    rw [clearTables_append_one]
    have hh : alGet s.front_themes n = none
        ∨ ∀ w : String, (!remFront ((alGet s.track_entities F).getD []) n) = false := by
      rcases hft with hft | hft
      · left
        exact Option.isNone_iff_eq_none.mp hft
      · right
        intro w
        have : remFront ((alGet s.track_entities F).getD []) n = true :=
          List.any_eq_true.mpr ⟨_, hft, by simp [trackeeOfFact]⟩
        rw [this]
        rfl
    unfold clearTables State.removeTrackee alRemove
    simp only [State.mk.injEq, and_true, true_and]
    refine filter_ne_filter_q_insert _ _ _ _ ?_
    exact hh
  | adminTheme n p =>
    show (State.add_admin_theme_path s n p).clear_from_source F = s.clear_from_source F
    unfold State.add_admin_theme_path
    rw [maybeTrack_eq s F _ hsrc]
    rw [clear_eq_clearTables, clear_eq_clearTables]
    show clearTables
      ((alGet (State.tlTrack s.track_entities F (.Themes .Adminhtml n)) F).getD []) _ = _
    rw [alGet_tlTrack_self, alRemove_tlTrack]
    show clearTables
      ((alGet s.track_entities F).getD [] ++ [Trackee.Themes .Adminhtml n]) _ = _
    rw [clearTables_append_one]
    have hh : alGet s.admin_themes n = none
        ∨ ∀ w : String, (!remAdmin ((alGet s.track_entities F).getD []) n) = false := by
      rcases hft with hft | hft
      · left
        exact Option.isNone_iff_eq_none.mp hft
      · right
        intro w
        have : remAdmin ((alGet s.track_entities F).getD []) n = true :=
          List.any_eq_true.mpr ⟨_, hft, by simp [trackeeOfFact]⟩
        rw [this]
        rfl
    unfold clearTables State.removeTrackee alRemove
    simp only [State.mk.injEq, and_true, true_and]
    refine filter_ne_filter_q_insert _ _ _ _ ?_
    exact hh
  | jsMap a k v =>
    show (State.add_component_map s k v a).clear_from_source F = s.clear_from_source F
    unfold State.add_component_map
    rw [maybeTrack_eq s F _ hsrc]
    rw [clear_eq_clearTables, clear_eq_clearTables]
    show clearTables ((alGet (State.tlTrack s.track_entities F (.JsMap a k)) F).getD []) _
      = _
    rw [alGet_tlTrack_self, alRemove_tlTrack]
    show clearTables ((alGet s.track_entities F).getD [] ++ [Trackee.JsMap a k]) _ = _
    rw [clearTables_append_one]
    have hh : alGet (s.js_maps.get a) k = none
        ∨ ∀ w : String, (!remJsMap ((alGet s.track_entities F).getD []) a k) = false := by
      rcases hft with hft | hft
      · left
        exact Option.isNone_iff_eq_none.mp hft
      · right
        intro w
        have : remJsMap ((alGet s.track_entities F).getD []) a k = true :=
          List.any_eq_true.mpr ⟨_, hft, by simp [trackeeOfFact]⟩
        rw [this]
        rfl
    cases a <;>
    · unfold clearTables State.removeTrackee Areas3.set Areas3.get alRemove
      simp only [State.mk.injEq, Areas3.mk.injEq, and_true, true_and]
      refine filter_ne_filter_q_insert _ _ _ _ ?_
      exact hh
  | jsPath a k v =>
    show (State.add_component_path s k v a).clear_from_source F = s.clear_from_source F
    unfold State.add_component_path
    rw [maybeTrack_eq s F _ hsrc]
    rw [clear_eq_clearTables, clear_eq_clearTables]
    show clearTables ((alGet (State.tlTrack s.track_entities F (.JsPath a k)) F).getD []) _
      = _
    rw [alGet_tlTrack_self, alRemove_tlTrack]
    show clearTables ((alGet s.track_entities F).getD [] ++ [Trackee.JsPath a k]) _ = _
    rw [clearTables_append_one]
    have hh : alGet (s.js_paths.get a) k = none
        ∨ ∀ w : String, (!remJsPath ((alGet s.track_entities F).getD []) a k) = false := by
      rcases hft with hft | hft
      · left
        exact Option.isNone_iff_eq_none.mp hft
      · right
        intro w
        have : remJsPath ((alGet s.track_entities F).getD []) a k = true :=
          List.any_eq_true.mpr ⟨_, hft, by simp [trackeeOfFact]⟩
        rw [this]
        rfl
    cases a <;>
    · unfold clearTables State.removeTrackee Areas3.set Areas3.get alRemove
      simp only [State.mk.injEq, Areas3.mk.injEq, and_true, true_and]
      refine filter_ne_filter_q_insert _ _ _ _ ?_
      exact hh
  | jsMixin a k v =>
    show (State.add_component_mixin fuel s k v a).clear_from_source F
      = s.clear_from_source F
    unfold State.add_component_mixin
    rw [maybeTrack_eq s F _ hsrc]
    dsimp only
    have hh : alGet (s.js_mixins.get a) k = none
        ∨ ∀ w : List M2Item, (!remJsMixin ((alGet s.track_entities F).getD []) a k) = false := by
      rcases hft with hft | hft
      · left
        exact Option.isNone_iff_eq_none.mp hft
      · right
        intro w
        have : remJsMixin ((alGet s.track_entities F).getD []) a k = true :=
          List.any_eq_true.mpr ⟨_, hft, by simp [trackeeOfFact]⟩
        rw [this]
        rfl
    cases hres : textToComponentF fuel
        { s with track_entities := State.tlTrack s.track_entities F (.JsMixin a k) } v "" with
    | some c =>
      rw [clear_eq_clearTables, clear_eq_clearTables]
      show clearTables
        ((alGet (State.tlTrack s.track_entities F (.JsMixin a k)) F).getD []) _ = _
      rw [alGet_tlTrack_self, alRemove_tlTrack]
      show clearTables ((alGet s.track_entities F).getD [] ++ [Trackee.JsMixin a k]) _ = _
      rw [clearTables_append_one]
      cases a <;>
      · unfold clearTables State.removeTrackee Areas3.set Areas3.get alRemove
        simp only [State.mk.injEq, Areas3.mk.injEq, and_true, true_and]
        refine filter_ne_filter_q_push _ _ _ _ ?_
        exact hh
    | none =>
      rw [clear_eq_clearTables, clear_eq_clearTables]
      show clearTables
        ((alGet (State.tlTrack s.track_entities F (.JsMixin a k)) F).getD []) _ = _
      rw [alGet_tlTrack_self, alRemove_tlTrack]
      show clearTables ((alGet s.track_entities F).getD [] ++ [Trackee.JsMixin a k]) _ = _
      rw [clearTables_append_one]
      cases a <;>
      · unfold clearTables State.removeTrackee Areas3.set Areas3.get alRemove
        simp only [State.mk.injEq, Areas3.mk.injEq, and_true, true_and]
        refine filter_ne_filter_q_id _ _ _ ?_
        exact hh


end M2

namespace M2

theorem maybeTrack_source (s : State) (t : Trackee) :
    (s.maybeTrack t).source_file = s.source_file := by
  cases h : s.source_file <;> simp [State.maybeTrack, h]

theorem applyFact_source (fuel : Nat) (s : State) (op : Fact) :
    (State.applyFact fuel s op).source_file = s.source_file := by
  cases op with
  | module m => exact maybeTrack_source s _
  | modulePath m p => exact maybeTrack_source s _
  | frontTheme n p => exact maybeTrack_source s _
  | adminTheme n p => exact maybeTrack_source s _
  | jsMap a k v => exact maybeTrack_source s _
  | jsPath a k v => exact maybeTrack_source s _
  | jsMixin a k v =>
    show (State.add_component_mixin fuel s k v a).source_file = s.source_file
    unfold State.add_component_mixin
    dsimp only
    cases textToComponentF fuel (s.maybeTrack (.JsMixin a k)) v "" with
    | some c => exact maybeTrack_source s _
    | none => exact maybeTrack_source s _

theorem applyFact_track (fuel : Nat) (F : String) (s : State) (op : Fact)
    (hsrc : s.source_file = some F) :
    (State.applyFact fuel s op).track_entities
      = State.tlTrack s.track_entities F (trackeeOfFact op) := by
  cases op with
  | module m =>
    rw [show State.applyFact fuel s (.module m) = State.add_module s m from rfl,
      State.add_module, maybeTrack_eq s F _ hsrc]
    rfl
  | modulePath m p =>
    rw [show State.applyFact fuel s (.modulePath m p)
      = State.add_module_path s m p from rfl, State.add_module_path, maybeTrack_eq s F _ hsrc]
    rfl
  | frontTheme n p =>
    rw [show State.applyFact fuel s (.frontTheme n p)
      = State.add_front_theme_path s n p from rfl, State.add_front_theme_path,
      maybeTrack_eq s F _ hsrc]
    rfl
  | adminTheme n p =>
    rw [show State.applyFact fuel s (.adminTheme n p)
      = State.add_admin_theme_path s n p from rfl, State.add_admin_theme_path,
      maybeTrack_eq s F _ hsrc]
    rfl
  | jsMap a k v =>
    rw [show State.applyFact fuel s (.jsMap a k v)
      = State.add_component_map s k v a from rfl, State.add_component_map,
      maybeTrack_eq s F _ hsrc]
    rfl
  | jsPath a k v =>
    rw [show State.applyFact fuel s (.jsPath a k v)
      = State.add_component_path s k v a from rfl, State.add_component_path,
      maybeTrack_eq s F _ hsrc]
    rfl
  | jsMixin a k v =>
    rw [show State.applyFact fuel s (.jsMixin a k v)
      = State.add_component_mixin fuel s k v a from rfl, State.add_component_mixin,
      maybeTrack_eq s F _ hsrc]
    dsimp only
    cases textToComponentF fuel
        { s with track_entities := State.tlTrack s.track_entities F (.JsMixin a k) } v "" with
    | some c => rfl
    | none => rfl

end M2

namespace M2

theorem alGet_map_entry_ne {β : Type} (m : List (String × β)) (k q : String)
    (f : β → β) (h : q ≠ k) :
    alGet (m.map (fun e => if e.1 = k then (e.1, f e.2) else e)) q = alGet m q := by
  induction m with
  | nil => rfl
  | cons e rest ih =>
    rw [List.map_cons]
    by_cases hk : e.1 = k
    · rw [if_pos hk, alGet_cons, alGet_cons]
      have : ¬ e.1 = q := by
        rw [hk]
        exact fun hh => h hh.symm
      rw [if_neg this, if_neg this]
      exact ih
    · rw [if_neg hk, alGet_cons, alGet_cons]
      by_cases hq : e.1 = q
      · rw [if_pos hq, if_pos hq]
      · rw [if_neg hq, if_neg hq]
        exact ih

theorem alGet_alPush_ne {β : Type} (m : List (String × List β)) (k q : String)
    (x : β) (h : q ≠ k) : alGet (alPush m k x) q = alGet m q := by
  unfold alPush
  cases hg : (alGet m k).isSome with
  | true =>
    rw [if_pos rfl]
    exact alGet_map_entry_ne m k q (fun l => l ++ [x]) h
  | false =>
    rw [if_neg (by simp)]
    rw [alGet_cons]
    rw [if_neg (fun hh => h hh.symm)]

theorem trackeeOfFact_ne_base_theme (op : Fact) (n : String) :
    trackeeOfFact op ≠ .Themes .Base n := by
  cases op <;> simp [trackeeOfFact]

theorem keyAbsentB_applyFact (fuel : Nat) (F : String) (s : State) (op : Fact)
    (t' : Trackee) (hsrc : s.source_file = some F)
    (hne : t' ≠ trackeeOfFact op) (himg : ∀ n, t' ≠ .Themes .Base n)
    (h : keyAbsentB t' s = true) :
    keyAbsentB t' (State.applyFact fuel s op) = true := by
  cases op with
  | module m =>
    rw [show State.applyFact fuel s (.module m) = State.add_module s m from rfl,
      State.add_module, maybeTrack_eq s F _ hsrc]
    cases t' with
    | Module m' =>
      have h1 : m' ∉ s.modules := of_decide_eq_true h
      have h2 : m' ≠ m := fun hh => hne (by rw [hh]; rfl)
      exact decide_eq_true (by simp [List.mem_append, h1, h2])
    | ModulePath m' => exact h
    | JsMap a' k' => exact h
    | JsPath a' k' => exact h
    | JsMixin a' k' => exact h
    | Themes a' n' => cases a' <;> exact h
  | modulePath m p =>
    rw [show State.applyFact fuel s (.modulePath m p) = State.add_module_path s m p
      from rfl, State.add_module_path, maybeTrack_eq s F _ hsrc]
    cases t' with
    | Module m' => exact h
    | ModulePath m' =>
      have h2 : m' ≠ m := fun hh => hne (by rw [hh]; rfl)
      show (alGet (alInsert s.module_paths m p) m').isNone = true
      rw [alGet_alInsert_ne _ _ _ _ h2]
      exact h
    | JsMap a' k' => exact h
    | JsPath a' k' => exact h
    | JsMixin a' k' => exact h
    | Themes a' n' => cases a' <;> exact h
  | frontTheme n p =>
    rw [show State.applyFact fuel s (.frontTheme n p) = State.add_front_theme_path s n p
      from rfl, State.add_front_theme_path, maybeTrack_eq s F _ hsrc]
    cases t' with
    | Module m' => exact h
    | ModulePath m' => exact h
    | JsMap a' k' => exact h
    | JsPath a' k' => exact h
    | JsMixin a' k' => exact h
    | Themes a' n' =>
      cases a' with
      | Frontend =>
        have h2 : n' ≠ n := fun hh => hne (by rw [hh]; rfl)
        show (alGet (alInsert s.front_themes n p) n').isNone = true
        rw [alGet_alInsert_ne _ _ _ _ h2]
        exact h
      | Adminhtml => exact h
      | Base => exact absurd rfl (himg n')
  | adminTheme n p =>
    rw [show State.applyFact fuel s (.adminTheme n p) = State.add_admin_theme_path s n p
      from rfl, State.add_admin_theme_path, maybeTrack_eq s F _ hsrc]
    cases t' with
    | Module m' => exact h
    | ModulePath m' => exact h
    | JsMap a' k' => exact h
    | JsPath a' k' => exact h
    | JsMixin a' k' => exact h
    | Themes a' n' =>
      cases a' with
      | Frontend => exact h
      | Adminhtml =>
        have h2 : n' ≠ n := fun hh => hne (by rw [hh]; rfl)
        show (alGet (alInsert s.admin_themes n p) n').isNone = true
        rw [alGet_alInsert_ne _ _ _ _ h2]
        exact h
      | Base => exact absurd rfl (himg n')
  | jsMap a k v =>
    rw [show State.applyFact fuel s (.jsMap a k v) = State.add_component_map s k v a
      from rfl, State.add_component_map, maybeTrack_eq s F _ hsrc]
    cases t' with
    | Module m' => exact h
    | ModulePath m' => exact h
    | JsPath a' k' => exact h
    | JsMixin a' k' => exact h
    | Themes a' n' => cases a' <;> exact h
    | JsMap a' k' =>
      show (alGet ((s.js_maps.set a (alInsert (s.js_maps.get a) k v)).get a') k').isNone
        = true
      by_cases ha : a' = a
      · subst ha
        have h2 : k' ≠ k := fun hh => hne (by rw [hh]; rfl)
        rw [Areas3.get_set_self, alGet_alInsert_ne _ _ _ _ h2]
        exact h
      · rw [Areas3.get_set_ne _ _ _ _ ha]
        exact h
  | jsPath a k v =>
    rw [show State.applyFact fuel s (.jsPath a k v) = State.add_component_path s k v a
      from rfl, State.add_component_path, maybeTrack_eq s F _ hsrc]
    cases t' with
    | Module m' => exact h
    | ModulePath m' => exact h
    | JsMap a' k' => exact h
    | JsMixin a' k' => exact h
    | Themes a' n' => cases a' <;> exact h
    | JsPath a' k' =>
      show (alGet ((s.js_paths.set a (alInsert (s.js_paths.get a) k v)).get a') k').isNone
        = true
      by_cases ha : a' = a
      · subst ha
        have h2 : k' ≠ k := fun hh => hne (by rw [hh]; rfl)
        rw [Areas3.get_set_self, alGet_alInsert_ne _ _ _ _ h2]
        exact h
      · rw [Areas3.get_set_ne _ _ _ _ ha]
        exact h
  | jsMixin a k v =>
    rw [show State.applyFact fuel s (.jsMixin a k v)
      = State.add_component_mixin fuel s k v a from rfl, State.add_component_mixin,
      maybeTrack_eq s F _ hsrc]
    dsimp only
    cases textToComponentF fuel
        { s with track_entities := State.tlTrack s.track_entities F (.JsMixin a k) } v ""
        with
    | none => exact h
    | some c =>
      cases t' with
      | Module m' => exact h
      | ModulePath m' => exact h
      | JsMap a' k' => exact h
      | JsPath a' k' => exact h
      | Themes a' n' => cases a' <;> exact h
      | JsMixin a' k' =>
        show (alGet ((s.js_mixins.set a (alPush (s.js_mixins.get a) k c)).get a') k').isNone
          = true
        by_cases ha : a' = a
        · subst ha
          have h2 : k' ≠ k := fun hh => hne (by rw [hh]; rfl)
          rw [Areas3.get_set_self, alGet_alPush_ne _ _ _ _ h2]
          exact h
        · rw [Areas3.get_set_ne _ _ _ _ ha]
          exact h

end M2

namespace M2

theorem clear_foldl_applyFact (fuel : Nat) (F : String) (ops : List Fact) (s : State)
    (hsrc : s.source_file = some F)
    (hfresh : ∀ op ∈ ops, keyAbsentB (trackeeOfFact op) s = true
      ∨ trackeeOfFact op ∈ (alGet s.track_entities F).getD []) :
    (ops.foldl (State.applyFact fuel) s).clear_from_source F
      = s.clear_from_source F := by
  induction ops generalizing s with
  | nil => rfl
  | cons op ops ih =>
    rw [List.foldl_cons]
    have hstep := clear_applyFact fuel F op s hsrc (hfresh op (List.mem_cons_self op ops))
    rw [← hstep]
    apply ih
    · rw [applyFact_source]
      exact hsrc
    · intro op' hop'
      rcases hfresh op' (List.mem_cons_of_mem _ hop') with hk | ht
      · by_cases he : trackeeOfFact op' = trackeeOfFact op
        · right
          rw [applyFact_track fuel F s op hsrc, alGet_tlTrack_self]
          show trackeeOfFact op'
            ∈ (alGet s.track_entities F).getD [] ++ [trackeeOfFact op]
          rw [he]
          exact List.mem_append_right _ (List.mem_singleton.mpr rfl)
        · left
          exact keyAbsentB_applyFact fuel F s op _ hsrc he
            (fun n => trackeeOfFact_ne_base_theme op' n) hk
      · right
        rw [applyFact_track fuel F s op hsrc, alGet_tlTrack_self]
        show trackeeOfFact op'
          ∈ (alGet s.track_entities F).getD [] ++ [trackeeOfFact op]
        exact List.mem_append_left _ ht

theorem clear_of_untracked (s : State) (F : String)
    (h : alGet s.track_entities F = none) : s.clear_from_source F = s := by
  unfold State.clear_from_source
  rw [h]

theorem applyFact_buffers_comm (fuel : Nat) (x : State) (b : List (String × List Fact))
    (op : Fact) :
    State.applyFact fuel { x with buffers := b } op
      = { State.applyFact fuel x op with buffers := b } := by
  cases op with
  | module m => cases h : x.source_file <;>
      simp [State.applyFact, State.add_module, State.maybeTrack, h]
  | modulePath m p => cases h : x.source_file <;>
      simp [State.applyFact, State.add_module_path, State.maybeTrack, h]
  | frontTheme n p => cases h : x.source_file <;>
      simp [State.applyFact, State.add_front_theme_path, State.maybeTrack, h]
  | adminTheme n p => cases h : x.source_file <;>
      simp [State.applyFact, State.add_admin_theme_path, State.maybeTrack, h]
  | jsMap a k v => cases h : x.source_file <;>
      simp [State.applyFact, State.add_component_map, State.maybeTrack, h]
  | jsPath a k v => cases h : x.source_file <;>
      simp [State.applyFact, State.add_component_path, State.maybeTrack, h]
  | jsMixin a k v =>
    show State.add_component_mixin fuel { x with buffers := b } k v a
      = { State.add_component_mixin fuel x k v a with buffers := b }
    unfold State.add_component_mixin
    dsimp only
    have hmb : ({ x with buffers := b } : State).maybeTrack (.JsMixin a k)
        = { x.maybeTrack (.JsMixin a k) with buffers := b } := by
      cases h : x.source_file <;> simp [State.maybeTrack, h]
    rw [hmb]
    rw [textToComponentF_congr fuel (x.maybeTrack (.JsMixin a k))
      { x.maybeTrack (.JsMixin a k) with buffers := b } rfl rfl rfl v ""]
    cases textToComponentF fuel (x.maybeTrack (.JsMixin a k)) v "" with
    | some c => rfl
    | none => rfl

theorem foldl_applyFact_buffers_comm (fuel : Nat) (ops : List Fact) (x : State)
    (b : List (String × List Fact)) :
    ops.foldl (State.applyFact fuel) { x with buffers := b }
      = { ops.foldl (State.applyFact fuel) x with buffers := b } := by
  induction ops generalizing x with
  | nil => rfl
  | cons op ops ih =>
    rw [List.foldl_cons, List.foldl_cons, applyFact_buffers_comm, ih]

theorem foldl_applyFact_buffers (fuel : Nat) (ops : List Fact) (x : State) :
    (ops.foldl (State.applyFact fuel) x).buffers = x.buffers := by
  have h := foldl_applyFact_buffers_comm fuel ops x x.buffers
  have hx : ({ x with buffers := x.buffers } : State) = x := rfl
  rw [hx] at h
  rw [h]

theorem alRemove_idem {α : Type} (m : List (String × α)) (k : String) :
    alRemove (alRemove m k) k = alRemove m k := by
  unfold alRemove
  rw [List.filter_filter]
  apply List.filter_congr
  intro a _
  by_cases h : a.1 = k <;> simp [h]

theorem alInsert_alInsert {α : Type} (m : List (String × α)) (k : String) (v w : α) :
    alInsert (alInsert m k v) k w = alInsert m k w := by
  unfold alInsert
  rw [alRemove_cons, if_pos rfl, alRemove_idem]

end M2

namespace M2

theorem clear_buffers_comm (X : State) (b : List (String × List Fact)) (F : String) :
    ({ X with buffers := b } : State).clear_from_source F
      = { X.clear_from_source F with buffers := b } := by
  rw [clear_eq_clearTables, clear_eq_clearTables]
  rfl

theorem set_file_retract_reinsert (fuel : Nat) (F : String) (ops1 ops2 : List Fact)
    (s0 : State)
    (hF : alGet s0.track_entities F = none)
    (hfresh : ∀ op ∈ ops1, keyAbsentB (trackeeOfFact op) s0 = true) :
    State.set_file fuel (State.set_file fuel s0 F ops1) F ops2
      = State.set_file fuel s0 F ops2 := by
  have hclear0 : s0.clear_from_source F = s0 := clear_of_untracked s0 F hF
  have hA : State.set_file fuel s0 F ops1
      = { ops1.foldl (State.applyFact fuel) (s0.set_source_file F) with
          buffers := alInsert (ops1.foldl (State.applyFact fuel)
            (s0.set_source_file F)).buffers F ops1 } := by
    unfold State.set_file State.indexOps
    rw [hclear0]
  have hBbuf : (ops1.foldl (State.applyFact fuel) (s0.set_source_file F)).buffers
      = s0.buffers := foldl_applyFact_buffers fuel ops1 (s0.set_source_file F)
  have hclearB : (ops1.foldl (State.applyFact fuel)
      (s0.set_source_file F)).clear_from_source F = s0.set_source_file F := by
    rw [clear_foldl_applyFact fuel F ops1 (s0.set_source_file F) rfl
      (fun op hop => Or.inl (hfresh op hop))]
    exact clear_of_untracked _ _ hF
  have hclearA : (State.set_file fuel s0 F ops1).clear_from_source F
      = { s0.set_source_file F with buffers := alInsert s0.buffers F ops1 } := by
    rw [hA, hBbuf, clear_buffers_comm, hclearB]
  have hRHS : State.set_file fuel s0 F ops2
      = { ops2.foldl (State.applyFact fuel) (s0.set_source_file F) with
          buffers := alInsert s0.buffers F ops2 } := by
    unfold State.set_file State.indexOps
    rw [hclear0]
    dsimp only
    rw [foldl_applyFact_buffers]
    rfl
  have hsf : State.set_file fuel (State.set_file fuel s0 F ops1) F ops2
      = { ops2.foldl (State.applyFact fuel)
            (((State.set_file fuel s0 F ops1).clear_from_source F).set_source_file F) with
          buffers := alInsert (ops2.foldl (State.applyFact fuel)
            (((State.set_file fuel s0 F ops1).clear_from_source
              F).set_source_file F)).buffers F ops2 } := rfl
  rw [hsf, hclearA, hRHS]
  rw [show (({ s0.set_source_file F with
      buffers := alInsert s0.buffers F ops1 } : State).set_source_file F)
    = { s0.set_source_file F with buffers := alInsert s0.buffers F ops1 } from rfl]
  rw [foldl_applyFact_buffers_comm fuel ops2 (s0.set_source_file F)
    (alInsert s0.buffers F ops1)]
  rw [show ({ ops2.foldl (State.applyFact fuel) (s0.set_source_file F) with
      buffers := alInsert s0.buffers F ops1 } : State).buffers
    = alInsert s0.buffers F ops1 from rfl]
  rw [alInsert_alInsert]

end M2

namespace M2

/-- C1: retract/reinsert round trip.  Indexing file `F` with content
`ops1` into an index `s0` that has no provenance entry for `F`, then
applying `change(F, ops2)` (`set_file`, which retracts every fact
previously attributed to `F` and re-extracts), leaves the module list,
the module-path table, both theme tables, the JS-map tables and the
JS-mixin tables identical to those obtained by extracting `ops2` into
`s0` directly — no facts from `ops1` remain and no duplicates are
introduced.  The hypothesis `hfresh` is the claim's stated assumption
that distinct files do not collide on the same fact key: `ops1`'s keys
are absent from `s0`'s tables. -/
theorem c1_retract_reinsert_round_trip (fuel : Nat) (F : String)
    (ops1 ops2 : List Fact) (s0 : State)
    (hF : alGet s0.track_entities F = none)
    (hfresh : ∀ op ∈ ops1, keyAbsentB (trackeeOfFact op) s0 = true) :
    (State.set_file fuel (State.set_file fuel s0 F ops1) F ops2).modules
        = (State.set_file fuel s0 F ops2).modules
    ∧ (State.set_file fuel (State.set_file fuel s0 F ops1) F ops2).module_paths
        = (State.set_file fuel s0 F ops2).module_paths
    ∧ (State.set_file fuel (State.set_file fuel s0 F ops1) F ops2).front_themes
        = (State.set_file fuel s0 F ops2).front_themes
    ∧ (State.set_file fuel (State.set_file fuel s0 F ops1) F ops2).admin_themes
        = (State.set_file fuel s0 F ops2).admin_themes
    ∧ (State.set_file fuel (State.set_file fuel s0 F ops1) F ops2).js_maps
        = (State.set_file fuel s0 F ops2).js_maps
    ∧ (State.set_file fuel (State.set_file fuel s0 F ops1) F ops2).js_mixins
        = (State.set_file fuel s0 F ops2).js_mixins := by
  have h := set_file_retract_reinsert fuel F ops1 ops2 s0 hF hfresh
  exact ⟨by rw [h], by rw [h], by rw [h], by rw [h], by rw [h], by rw [h]⟩

/-- A base index that already holds facts from another file `G`, for
the C1 witness. -/
def c1WitnessBase : State :=
  State.set_file 9 State.new "G"
    [.module "Gg_Hh", .modulePath "Gg_Hh" "/pg", .jsMap .Base "gk" "gv"]

/-- The first content of file `F` for the C1 witness: module, theme,
map, path and mixin facts (the mixin resolvable through the module the
same file registers). -/
def c1Ops1 : List Fact :=
  [.module "Aa_Bb", .modulePath "Aa_Bb" "/p1", .jsMap .Base "k" "v",
    .jsPath .Base "pk" "pv", .frontTheme "th" "/tp", .jsMixin .Base "mk" "Aa_Bb/js/x"]

/-- The replacement content of file `F` for the C1 witness. -/
def c1Ops2 : List Fact :=
  [.module "Cc_Dd", .modulePath "Cc_Dd" "/p2", .jsMap .Frontend "k2" "v2",
    .jsMixin .Base "mk2" "Cc_Dd/js/y"]

/-- Witness for C1 at concrete contents over a non-empty base index. -/
theorem c1_retract_reinsert_round_trip_witness :
    (alGet c1WitnessBase.track_entities "F" = none
      ∧ ∀ op ∈ c1Ops1, keyAbsentB (trackeeOfFact op) c1WitnessBase = true)
    ∧ ((State.set_file 9 (State.set_file 9 c1WitnessBase "F" c1Ops1) "F" c1Ops2).modules
        = (State.set_file 9 c1WitnessBase "F" c1Ops2).modules
      ∧ (State.set_file 9 (State.set_file 9 c1WitnessBase "F" c1Ops1) "F"
          c1Ops2).module_paths
        = (State.set_file 9 c1WitnessBase "F" c1Ops2).module_paths
      ∧ (State.set_file 9 (State.set_file 9 c1WitnessBase "F" c1Ops1) "F"
          c1Ops2).front_themes
        = (State.set_file 9 c1WitnessBase "F" c1Ops2).front_themes
      ∧ (State.set_file 9 (State.set_file 9 c1WitnessBase "F" c1Ops1) "F"
          c1Ops2).admin_themes
        = (State.set_file 9 c1WitnessBase "F" c1Ops2).admin_themes
      ∧ (State.set_file 9 (State.set_file 9 c1WitnessBase "F" c1Ops1) "F"
          c1Ops2).js_maps
        = (State.set_file 9 c1WitnessBase "F" c1Ops2).js_maps
      ∧ (State.set_file 9 (State.set_file 9 c1WitnessBase "F" c1Ops1) "F"
          c1Ops2).js_mixins
        = (State.set_file 9 c1WitnessBase "F" c1Ops2).js_mixins) :=
  ⟨⟨by decide, by decide⟩,
    c1_retract_reinsert_round_trip 9 "F" c1Ops1 c1Ops2 c1WitnessBase
      (by decide) (by decide)⟩

end M2
